import Mathlib

/-!
Verification development for the `Pretty-print` repository (src/ast.ts).

The source is a TypeScript pretty printer over a custom AST.  We embed the
data model (the `Node` interfaces of src/ast.ts) and the printing functions
(`prettyPrint` and its `printX` helpers) shallowly in Lean.

Modelling decisions, each traceable to the source:
  * TS `number` offsets are `Nat`; the `tabWidth`/`printWidth` options are
    `Int` (JS numbers may be negative, and `' '.repeat(tabWidth)` throws a
    `RangeError` for a negative count).
  * The printer throws in two places: the `default` branch of the
    `prettyPrint` dispatch (`Unsupported node type`), and the
    `String.prototype.repeat` call with a negative count.  Both are
    modelled with `Except PPErr`.
  * The source reads a global `sourceCode` variable (in `printComment` and
    `printClassDeclaration`) that is defined nowhere in the repository; it
    is modelled as an explicit `src : String` argument threaded through
    the printers.
  * `collectComments` is imported from a `./comments` module that is not
    part of the repository; it is modelled from the spec (see its doc
    comment below).
  * JS `array.map(f)` / `forEach` over a throwing callback is sequential
    left-to-right; it is embedded as explicit list recursion
    (`printExprList`, `printBodyItems`, ...).  The `index ===
    array.length - 1` last-element test of `printProgram` /
    `printBlockStatement` is the `rest.isEmpty` test of the embedding.
  * `printStatement`'s trailing-newline logic (`if (!isLast) output +=
    '\n'`) is inlined at its call sites; `printIfStatement` calls it
    without the `isLast` argument (`undefined` is falsy), so the newline
    is always appended there.
-/

set_option linter.unusedVariables false

/-- Errors of the embedded printer.  `unsupported` models the
`Unsupported node type` / `Unsupported statement type` throws and
`range` models the `RangeError` thrown by `' '.repeat(n)` for `n < 0`. -/
inductive PPErr where
  | unsupported (tag : String)
  | range
deriving DecidableEq, Repr

deriving instance DecidableEq for Except

/-- The `CommentFormat` enum of the source. -/
inductive CommentFormat where
  | multiline
  | singleline
  | html
  | jsdoc
deriving DecidableEq, Repr

/-- The `kind` field of a `VariableDeclaration` (`'var' | 'let' | 'const'`). -/
inductive VarKind where
  | kvar
  | klet
  | kconst
deriving DecidableEq, Repr

/-- Rendering of a `VarKind` as the source keyword. -/
def VarKind.str : VarKind → String
  | .kvar => "var"
  | .klet => "let"
  | .kconst => "const"

/-- The `Comment` interface: a raw comment with its `value` text and its
half-open offset span (`start`, `end`) into the source buffer.  The
printer ignores `value` and re-extracts the text from the source buffer
via the span; the field is kept because the interface declares it.  The
source field `end` is named `stop` here (`end` is a Lean keyword). -/
structure RawComment where
  value : String
  start : Nat
  stop : Nat
deriving DecidableEq, Repr

mutual

/-- Expression nodes of src/ast.ts.  `Identifier` is included here because
the printer dispatches it together with the expressions (`prettyPrint` is
untyped over `Node`) and identifiers occur in expression positions
throughout the source.  `lineBreak` is the optional bitmask field
(absent = 0). -/
inductive Expr where
  | identifier (name : String)
  | literal (raw : String)
  | binary (operator : String) (left right : Expr) (lineBreak : Nat)
  | unary (operator : String) (argument : Expr)
  | call (callee : Expr) (arguments : List Expr)
  | member (object : Expr) (property : String) (computed : Bool)
  | arrayE (elements : List (Option Expr))
  | objectE (properties : List ObjProperty)
  | arrow (params : List String) (body : ArrowBody)
  | thisE
  | spread (argument : Expr)
  | conditional (test consequent alternate : Expr) (lineBreak : Nat)

/-- The `Property` interface (an `ObjectExpression` entry); its constant
`kind : 'init'` field is not consulted by the printer and is omitted. -/
inductive ObjProperty where
  | mk (key : Expr) (value : Expr)

/-- The body of an `ArrowFunctionExpression`: `Expression | BlockStatement`. -/
inductive ArrowBody where
  | expr (e : Expr)
  | block (body : List BodyItem)

/-- Statement nodes of src/ast.ts.  A `BlockStatement` is its list of body
items; `FunctionDeclaration.body` inlines that list. -/
inductive Stmt where
  | exprStmt (expression : Expr)
  | varDecl (kind : VarKind) (declarations : List Declarator)
  | ifStmt (test : Expr) (consequent : Stmt) (alternate : Option Stmt)
  | block (body : List BodyItem)
  | funcDecl (id : String) (params : List String) (body : List BodyItem)
  | classDecl (id : String) (body : List ClassItem)
  | ret (argument : Option Expr)

/-- The `VariableDeclarator` interface: an identifier and an optional
initializer. -/
inductive Declarator where
  | mk (id : String) (init : Option Expr)

/-- An entry of a `Program` or `BlockStatement` body:
`Statement | Comment`. -/
inductive BodyItem where
  | stmt (s : Stmt)
  | comment (c : RawComment)

/-- An entry of a `ClassBody`: `ClassElement | Comment`.  A `ClassElement`
carries its method name (`key`, typed `Identifier` in the source), its
`static` flag, the `value : FunctionExpression` (inlined as `params` and
`body`), and its source span (consulted by `printClassDeclaration` for
comment collection).  The `kind` field is never consulted by the printer
and is omitted. -/
inductive ClassItem where
  | element (key : String) (isStatic : Bool) (params : List String)
      (body : List BodyItem) (start : Nat) (stop : Nat)
  | comment (c : RawComment)

end

/-- A `Node` as dispatched by `prettyPrint`'s switch.  The constructors
cover the node categories the source prints; `unknown` models a node whose
`type` tag reaches the `default` branch (TS nodes are tagged at run time
by a string, so an unmapped tag is representable). -/
inductive Node where
  | program (body : List BodyItem)
  | stmt (s : Stmt)
  | declarator (d : Declarator)
  | expr (e : Expr)
  | property (p : ObjProperty)
  | classElem (key : String) (isStatic : Bool) (params : List String)
      (body : List BodyItem)
  | funcExpr (params : List String) (body : List BodyItem)
  | comment (c : RawComment)
  | unknown (tag : String)

/-- `LineBreakFlags.Before` (1 << 0). -/
def LineBreakFlags.Before : Nat := 1
/-- `LineBreakFlags.After` (1 << 1). -/
def LineBreakFlags.After : Nat := 2
/-- `LineBreakFlags.Both` (1 << 2). -/
def LineBreakFlags.Both : Nat := 4

/-- `CommentTypeFlags.All` (all four kind bits set). -/
def CommentTypeFlags.All : Nat := 15
/-- `CommentTypeFlags.NoneK` (`CommentTypeFlags.None`: no kind bits). -/
def CommentTypeFlags.NoneK : Nat := 0

/-- `CommentPlacementFlags.Before` (1 << 0). -/
def CommentPlacementFlags.Before : Nat := 1
/-- `CommentPlacementFlags.After` (1 << 1). -/
def CommentPlacementFlags.After : Nat := 2

/-- The options record destructured by every printer
(`printWidth, tabWidth, useTabs, lineBreak, commentPlacement,
commentFormat, commentTypes, commentPlacementFlag`). -/
structure Options where
  printWidth : Int
  tabWidth : Int
  useTabs : Bool
  lineBreak : Bool
  commentPlacement : String
  commentFormat : CommentFormat
  commentTypes : Nat
  commentPlacementFlag : Nat
deriving DecidableEq, Repr

/-- The `defaultOptions` constant of the source. -/
def defaultOptions : Options where
  printWidth := 80
  tabWidth := 2
  useTabs := false
  lineBreak := false
  commentPlacement := "after"
  commentFormat := .multiline
  commentTypes := CommentTypeFlags.All
  commentPlacementFlag := CommentPlacementFlags.After

/-- JS truthiness of `mask & flag` for the bitmask tests of the source. -/
def hasFlag (mask flag : Nat) : Bool := mask &&& flag != 0

/-- The per-function `indentation` constant:
`useTabs ? '\t' : ' '.repeat(tabWidth)`.  JS `repeat` throws a
`RangeError` for a negative count. -/
def indentationOf (o : Options) : Except PPErr String :=
  if o.useTabs then .ok "\t"
  else if o.tabWidth < 0 then .error .range
  else .ok (String.mk (List.replicate o.tabWidth.toNat ' '))

/-- JS `String.prototype.substring(a, b)`: clamps to the string length and
swaps the arguments when `a > b`. -/
def jsSubstring (s : String) (a b : Nat) : String :=
  String.mk (((s.toList).take (max a b)).drop (min a b))

/-- JS `String.prototype.trim()`: strips leading and trailing whitespace. -/
def jsTrim (s : String) : String :=
  String.mk ((((s.toList.dropWhile Char.isWhitespace).reverse).dropWhile
    Char.isWhitespace).reverse)

/-- JS `Array.prototype.join(sep)`. -/
def jsJoin (sep : String) : List String → String
  | [] => ""
  | a :: as => as.foldl (fun acc s => acc ++ sep ++ s) a

/-- Concatenation in source order, modelling the `output += piece`
accumulation of `forEach` loops. -/
def jsConcat (l : List String) : String := l.foldl (· ++ ·) ""

/-- `mapM` for `Except`, written by plain recursion so that it unfolds
definitionally; models mapping a throwing callback over a JS array (of
non-node values — parameter lists). -/
def exMapM (f : α → Except PPErr β) : List α → Except PPErr (List β)
  | [] => .ok []
  | a :: as => do
    let b ← f a
    let bs ← exMapM f as
    .ok (b :: bs)

/-- Splits a block-comment body at the first `*/`, returning the body and
the remainder of the character stream. -/
def splitBlockEnd : List Char → List Char × List Char
  | [] => ([], [])
  | '*' :: '/' :: rest => ([], rest)
  | ch :: rest =>
    let p := splitBlockEnd rest
    (ch :: p.1, p.2)

/-- Modelled from the spec: the repository imports `collectComments` from a
`./comments` module that is not part of the repository.  Per the spec, raw
comments are produced by scanning the source text independently of the
syntax tree, each carrying a half-open offset span; `printClassDeclaration`
invokes the collector on the span of a class element.  This model scans
the characters between the offsets for `//` line comments (span up to the
line end) and `/* ... */` block comments, returning their spans in source
order. -/
def collectCommentsGo : Nat → List Char → Nat → List RawComment
  | 0, _, _ => []
  | _ + 1, [], _ => []
  | f + 1, '/' :: '/' :: rest, i =>
    let body := rest.takeWhile (fun ch => ch ≠ '\n')
    ⟨String.mk body, i, i + 2 + body.length⟩ ::
      collectCommentsGo f (rest.drop body.length) (i + 2 + body.length)
  | f + 1, '/' :: '*' :: rest, i =>
    let p := splitBlockEnd rest
    ⟨String.mk p.1, i, i + 4 + p.1.length⟩ ::
      collectCommentsGo f p.2 (i + 4 + p.1.length)
  | f + 1, _ :: rest, i => collectCommentsGo f rest (i + 1)

/-- Modelled from the spec: entry point of the comment collector,
restricted to the half-open range `[start, stop)` of the source text (the
fourth `{ commentTypes: 'all' }` argument of the source call site retains
every kind and is dropped). -/
def collectComments (src : String) (start stop : Nat) : List RawComment :=
  collectCommentsGo (stop - start + 1) ((src.toList.drop start).take (stop - start)) start

/-- `printIdentifier`: the indentation followed by the name. -/
def printIdentifier (name : String) (o : Options) : Except PPErr String := do
  let indentation ← indentationOf o
  .ok (indentation ++ name)

/-- `printLiteral`: the indentation followed by the raw literal text. -/
def printLiteral (raw : String) (o : Options) : Except PPErr String := do
  let indentation ← indentationOf o
  .ok (indentation ++ raw)

/-- `printThisExpression`. -/
def printThisExpression (o : Options) : Except PPErr String := do
  let indentation ← indentationOf o
  .ok (indentation ++ "this")

/-- `printComment`: wraps the source text of the comment span in the
delimiters selected by `commentFormat`, prefixed by the indentation and
followed by a newline.  The text comes from the ambient source buffer
(`sourceCode.substring(comment.start, comment.end)`), not from the node's
`value` field. -/
def printComment (c : RawComment) (o : Options) (src : String) :
    Except PPErr String := do
  let indentation ← indentationOf o
  match o.commentFormat with
  | .multiline => .ok (indentation ++ "/* " ++ jsSubstring src c.start c.stop ++ " */\n")
  | .singleline => .ok (indentation ++ "// " ++ jsSubstring src c.start c.stop ++ "\n")
  | .html => .ok (indentation ++ "<!-- " ++ jsSubstring src c.start c.stop ++ " -->\n")
  | .jsdoc => .ok (indentation ++ "/** " ++ jsSubstring src c.start c.stop ++ " */\n")

/-- The per-class-element comment block built inside
`printClassDeclaration`: the collected comments of the element's span,
each wrapped per `commentFormat`, joined by newlines. -/
def classElementComments (o : Options) (src : String) (start stop : Nat) : String :=
  jsJoin "\n" ((collectComments src start stop).map (fun cm =>
    match o.commentFormat with
    | .multiline => "/* " ++ jsSubstring src cm.start cm.stop ++ " */"
    | .singleline => "// " ++ jsSubstring src cm.start cm.stop
    | .html => "<!-- " ++ jsSubstring src cm.start cm.stop ++ " -->"
    | .jsdoc => "/** " ++ jsSubstring src cm.start cm.stop ++ " */"))

/-- The surface text of `printBlockStatement` once the body pieces are
printed: `indentation ++ "{"`, an optional newline, the concatenated
pieces, an optional newline, `indentation ++ "}"`. -/
def blockSurface (indentation : String) (o : Options) (pieces : List String) : String :=
  indentation ++ "\x7b" ++ (if o.lineBreak then "\n" else "") ++
    jsConcat pieces ++ (if o.lineBreak then "\n" else "") ++ indentation ++ "\x7d"

mutual

/-- The statement printers of the source, one match arm per function:
`printExpressionStatement`, `printVariableDeclaration`,
`printIfStatement`, `printBlockStatement`, `printFunctionDeclaration`,
`printClassDeclaration`, `printReturnStatement` (the dispatch of
`printStatement` / `prettyPrint` over these arms). -/
def printStmt : Stmt → Options → String → Except PPErr String
  | .exprStmt e, o, src => do
    let indentation ← indentationOf o
    let eOut ← printExpr e o src
    .ok (indentation ++ eOut ++
      (if hasFlag o.commentPlacementFlag CommentPlacementFlags.After then ";" else ""))
  | .varDecl kind decls, o, src => do
    let indentation ← indentationOf o
    let parts ← printDeclaratorList decls o src
    .ok (indentation ++ kind.str ++ " " ++ jsJoin ", " parts ++
      (if hasFlag o.commentPlacementFlag CommentPlacementFlags.After then ";" else ""))
  | .ifStmt test consequent alternate, o, src => do
    let indentation ← indentationOf o
    let t ← printExpr test o src
    let c ← printStmt consequent o src
    let a ← (match alternate with
      | none => (pure "" : Except PPErr String)
      | some s => do
        let x ← printStmt s o src
        pure (" else " ++ x ++ "\n"))
    .ok (indentation ++ "if (" ++ t ++ ")" ++
      (if hasFlag o.commentPlacementFlag CommentPlacementFlags.After then " " else "") ++
      c ++ "\n" ++ a)
  | .block body, o, src => do
    let indentation ← indentationOf o
    let pieces ← printBodyItems body o src
    .ok (blockSurface indentation o pieces)
  | .funcDecl id params body, o, src => do
    let indentation ← indentationOf o
    let idOut ← printIdentifier id o
    let ps ← exMapM (fun pn => printIdentifier pn o) params
    let pieces ← printBodyItems body o src
    .ok (indentation ++ "function " ++ idOut ++ "(" ++ jsJoin ", " ps ++ ")" ++
      (if hasFlag o.commentPlacementFlag CommentPlacementFlags.After then " " else "") ++
      blockSurface indentation o pieces)
  | .classDecl id body, o, src => do
    let indentation ← indentationOf o
    let idOut ← printIdentifier id o
    let pieces ← printClassItems body o src
    .ok (indentation ++ "class " ++ idOut ++ " \x7b" ++ jsJoin "\n" pieces ++
      "\n" ++ indentation ++ "\x7d")
  | .ret argument, o, src => do
    let indentation ← indentationOf o
    let a ← (match argument with
      | none => (pure "" : Except PPErr String)
      | some e => do
        let x ← printExpr e o src
        pure (" " ++ x))
    .ok (indentation ++ "return" ++
      (if hasFlag o.commentPlacementFlag CommentPlacementFlags.After then " " else "") ++
      a ++ ";")

/-- The expression printers of the source, one match arm per function
(`printIdentifier` ... `printConditionalExpression`), dispatched as in
`prettyPrint`. -/
def printExpr : Expr → Options → String → Except PPErr String
  | .identifier name, o, src => printIdentifier name o
  | .literal raw, o, src => printLiteral raw o
  | .binary operator left right lineBreak, o, src => do
    let indentation ← indentationOf o
    let l ← printExpr left o src
    let r ← printExpr right o src
    .ok (l ++
      (if hasFlag o.commentPlacementFlag CommentPlacementFlags.After then " " else "") ++
      operator ++ " " ++ r ++
      (if lineBreak != 0 then
        (if hasFlag lineBreak LineBreakFlags.Before then "\n" else "") ++
        (if hasFlag lineBreak LineBreakFlags.After then "\n" else "")
       else ""))
  | .unary operator argument, o, src => do
    let indentation ← indentationOf o
    let a ← printExpr argument o src
    .ok (operator ++
      (if hasFlag o.commentPlacementFlag CommentPlacementFlags.After then " " else "") ++ a)
  | .call callee arguments, o, src => do
    let indentation ← indentationOf o
    let cOut ← printExpr callee o src
    let args ← printExprList arguments o src
    .ok (cOut ++
      (if hasFlag o.commentPlacementFlag CommentPlacementFlags.After then " " else "") ++
      "(" ++ jsJoin ", " args ++ ")")
  | .member object property computed, o, src => do
    let indentation ← indentationOf o
    let oOut ← printExpr object o src
    let pOut ← printIdentifier property o
    .ok (oOut ++
      (if hasFlag o.commentPlacementFlag CommentPlacementFlags.After then " " else "") ++
      (if computed then "[" else ".") ++ pOut ++ (if computed then "]" else ""))
  | .arrayE elements, o, src => do
    let indentation ← indentationOf o
    let outs ← printArrayElements elements o src
    .ok ("[" ++ jsJoin ", " outs ++ "]")
  | .objectE properties, o, src => do
    let indentation ← indentationOf o
    let outs ← printPropertyList properties o src
    .ok ("\x7b" ++ jsJoin ", " outs)
  | .arrow params body, o, src => do
    let indentation ← indentationOf o
    let ps ← exMapM (fun pn => printIdentifier pn o) params
    let b ← (match body with
      | .block bs => do
        let pieces ← printBodyItems bs o src
        (pure (blockSurface indentation o pieces) : Except PPErr String)
      | .expr e => printExpr e o src)
    .ok (indentation ++ "(" ++ jsJoin ", " ps ++ ") => " ++
      (if hasFlag o.commentPlacementFlag CommentPlacementFlags.After then " " else "") ++ b)
  | .thisE, o, src => printThisExpression o
  | .spread argument, o, src => do
    let indentation ← indentationOf o
    let a ← printExpr argument o src
    .ok (indentation ++ "..." ++ a)
  | .conditional test consequent alternate lineBreak, o, src => do
    let indentation ← indentationOf o
    let t ← printExpr test o src
    let c ← printExpr consequent o src
    let a ← printExpr alternate o src
    .ok (t ++ " ? " ++ c ++ " : " ++ a ++
      (if lineBreak != 0 then
        (if hasFlag lineBreak LineBreakFlags.Before then "\n" else "") ++
        (if hasFlag lineBreak LineBreakFlags.After then "\n" else "")
       else ""))

/-- `printVariableDeclarator`. -/
def printDeclarator : Declarator → Options → String → Except PPErr String
  | .mk id init, o, src => do
    let indentation ← indentationOf o
    let idOut ← printIdentifier id o
    let initOut ← (match init with
      | none => (pure "" : Except PPErr String)
      | some e => do
        let x ← printExpr e o src
        pure (" = " ++ x))
    .ok (idOut ++ initOut ++
      (if hasFlag o.commentPlacementFlag CommentPlacementFlags.After then ";" else ""))

/-- `printProperty`. -/
def printProperty : ObjProperty → Options → String → Except PPErr String
  | .mk key value, o, src => do
    let indentation ← indentationOf o
    let k ← printExpr key o src
    let v ← printExpr value o src
    .ok (k ++
      (if hasFlag o.commentPlacementFlag CommentPlacementFlags.After then " " else "") ++
      ": " ++ v)

/-- The `forEach` loop shared by `printProgram` and `printBlockStatement`:
comments are printed by `printComment`, statements by `printStatement`
with the trailing newline appended unless the item is last. -/
def printBodyItems : List BodyItem → Options → String → Except PPErr (List String)
  | [], _, _ => .ok []
  | item :: rest, o, src => do
    let piece ← (match item with
      | .comment c => printComment c o src
      | .stmt s => do
        let out ← printStmt s o src
        (pure (out ++ (if rest.isEmpty then "" else "\n")) : Except PPErr String))
    let pieces ← printBodyItems rest o src
    .ok (piece :: pieces)

/-- The `classBody.body.map` loop of `printClassDeclaration`: comments are
printed by `printComment`; for an element, the comments collected from its
source span are joined, then the element is printed (`printClassElement`,
inlined here: the `constructor` / `static` key special cases, then the
regular-method form). -/
def printClassItems : List ClassItem → Options → String → Except PPErr (List String)
  | [], _, _ => .ok []
  | item :: rest, o, src => do
    let piece ← (match item with
      | .comment c => printComment c o src
      | .element key isStatic params fbody cstart cstop => do
        let indentation ← indentationOf o
        let ps ← exMapM (fun pn => printIdentifier pn o) params
        let pieces ← printBodyItems fbody o src
        let b := blockSurface indentation o pieces
        let elOut ←
          if key == "constructor" then
            (pure (indentation ++ "constructor(" ++ jsJoin ", " ps ++ ") " ++ b) :
              Except PPErr String)
          else if key == "static" then do
            let keyOut ← printIdentifier key o
            pure (indentation ++ "static " ++ keyOut ++ "(" ++ jsJoin ", " ps ++ ") " ++ b)
          else do
            let keyOut ← printIdentifier key o
            pure (indentation ++ (if isStatic then "static " else "") ++ keyOut ++
              "(" ++ jsJoin ", " ps ++ ") " ++ b)
        pure (indentation ++ classElementComments o src cstart cstop ++ "\n" ++
          indentation ++ elOut))
    let pieces ← printClassItems rest o src
    .ok (piece :: pieces)

/-- `callExpression.arguments.map(prettyPrint)`. -/
def printExprList : List Expr → Options → String → Except PPErr (List String)
  | [], _, _ => .ok []
  | e :: es, o, src => do
    let x ← printExpr e o src
    let xs ← printExprList es o src
    .ok (x :: xs)

/-- `printArrayExpression`'s element loop: the `filter(e => e !== null)`
null-elision removal followed by `map(prettyPrint)`. -/
def printArrayElements : List (Option Expr) → Options → String → Except PPErr (List String)
  | [], _, _ => .ok []
  | none :: es, o, src => printArrayElements es o src
  | some e :: es, o, src => do
    let x ← printExpr e o src
    let xs ← printArrayElements es o src
    .ok (x :: xs)

/-- `objectExpression.properties.map(prettyPrint)`. -/
def printPropertyList : List ObjProperty → Options → String → Except PPErr (List String)
  | [], _, _ => .ok []
  | p :: ps, o, src => do
    let x ← printProperty p o src
    let xs ← printPropertyList ps o src
    .ok (x :: xs)

/-- `variableDeclaration.declarations.map(printVariableDeclarator)`. -/
def printDeclaratorList : List Declarator → Options → String → Except PPErr (List String)
  | [], _, _ => .ok []
  | d :: ds, o, src => do
    let x ← printDeclarator d o src
    let xs ← printDeclaratorList ds o src
    .ok (x :: xs)

end

/-- `printProgram`: prints every body item and trims the result. -/
def printProgram (body : List BodyItem) (o : Options) (src : String) :
    Except PPErr String := do
  let indentation ← indentationOf o
  let pieces ← printBodyItems body o src
  .ok (jsTrim (jsConcat pieces))

/-- `printBlockStatement` as a standalone entry (also reachable through
`prettyPrint` on a `BlockStatement` node). -/
def printBlockStatement (body : List BodyItem) (o : Options) (src : String) :
    Except PPErr String := do
  let indentation ← indentationOf o
  let pieces ← printBodyItems body o src
  .ok (blockSurface indentation o pieces)

/-- `printClassElement` as dispatched directly by `prettyPrint`. -/
def printClassElement (key : String) (isStatic : Bool) (params : List String)
    (body : List BodyItem) (o : Options) (src : String) : Except PPErr String := do
  let indentation ← indentationOf o
  let ps ← exMapM (fun pn => printIdentifier pn o) params
  let pieces ← printBodyItems body o src
  let b := blockSurface indentation o pieces
  if key == "constructor" then
    .ok (indentation ++ "constructor(" ++ jsJoin ", " ps ++ ") " ++ b)
  else if key == "static" then do
    let keyOut ← printIdentifier key o
    .ok (indentation ++ "static " ++ keyOut ++ "(" ++ jsJoin ", " ps ++ ") " ++ b)
  else do
    let keyOut ← printIdentifier key o
    .ok (indentation ++ (if isStatic then "static " else "") ++ keyOut ++
      "(" ++ jsJoin ", " ps ++ ") " ++ b)

/-- `printFunctionExpression`. -/
def printFunctionExpression (params : List String) (body : List BodyItem)
    (o : Options) (src : String) : Except PPErr String := do
  let indentation ← indentationOf o
  let ps ← exMapM (fun pn => printIdentifier pn o) params
  let pieces ← printBodyItems body o src
  .ok (indentation ++ "(" ++ jsJoin ", " ps ++ ") " ++ blockSurface indentation o pieces)

/-- The `prettyPrint` entry point: the switch over `node.type`, with the
`default` branch throwing the unsupported-node error. -/
def prettyPrint (node : Node) (o : Options) (src : String) : Except PPErr String :=
  match node with
  | .program body => printProgram body o src
  | .stmt s => printStmt s o src
  | .declarator d => printDeclarator d o src
  | .expr e => printExpr e o src
  | .property p => printProperty p o src
  | .classElem key isStatic params body => printClassElement key isStatic params body o src
  | .funcExpr params body => printFunctionExpression params body o src
  | .comment c => printComment c o src
  | .unknown tag => .error (.unsupported tag)


/-! ### Spec-side predicates and observation helpers

These definitions are the vocabulary of the claims: which nodes cause the
printer to consult the ambient source buffer, which embedded token strings
are brace-free, when the indentation computation succeeds, line splitting,
and character counting. -/

/-- The indentation computation succeeds: tabs are used, or the tab width
is non-negative (otherwise `' '.repeat(tabWidth)` throws). -/
def indentOk (o : Options) : Bool := o.useTabs || decide (0 ≤ o.tabWidth)

/-- A node whose `type` tag has a mapping in `prettyPrint`'s switch. -/
def Node.supported : Node → Bool
  | .unknown _ => false
  | _ => true

mutual

/-- A statement whose rendering never consults the ambient source buffer:
it contains no comment node, and any class declaration in it has an empty
body (`printClassDeclaration` invokes `collectComments` on the source for
every class element, and `printComment` reads the source for every comment). -/
def Stmt.srcFree : Stmt → Bool
  | .exprStmt e => Expr.srcFree e
  | .varDecl _ ds => Declarator.listSrcFree ds
  | .ifStmt t c a => Expr.srcFree t && Stmt.srcFree c &&
      (match a with | none => true | some s => Stmt.srcFree s)
  | .block body => BodyItem.listSrcFree body
  | .funcDecl _ _ body => BodyItem.listSrcFree body
  | .classDecl _ body => body.isEmpty
  | .ret a => (match a with | none => true | some e => Expr.srcFree e)

/-- Expression counterpart of `Stmt.srcFree`. -/
def Expr.srcFree : Expr → Bool
  | .identifier _ => true
  | .literal _ => true
  | .binary _ l r _ => Expr.srcFree l && Expr.srcFree r
  | .unary _ a => Expr.srcFree a
  | .call c args => Expr.srcFree c && Expr.listSrcFree args
  | .member ob _ _ => Expr.srcFree ob
  | .arrayE els => Expr.elementsSrcFree els
  | .objectE props => ObjProperty.listSrcFree props
  | .arrow _ b => ArrowBody.srcFree b
  | .thisE => true
  | .spread a => Expr.srcFree a
  | .conditional t c a _ => Expr.srcFree t && Expr.srcFree c && Expr.srcFree a

/-- Arrow-body counterpart of `Stmt.srcFree`. -/
def ArrowBody.srcFree : ArrowBody → Bool
  | .expr e => Expr.srcFree e
  | .block body => BodyItem.listSrcFree body

/-- Declarator counterpart of `Stmt.srcFree`. -/
def Declarator.srcFree : Declarator → Bool
  | .mk _ i => (match i with | none => true | some e => Expr.srcFree e)

/-- Property counterpart of `Stmt.srcFree`. -/
def ObjProperty.srcFree : ObjProperty → Bool
  | .mk k v => Expr.srcFree k && Expr.srcFree v

/-- Body-list counterpart of `Stmt.srcFree`: false as soon as a comment
node occurs. -/
def BodyItem.listSrcFree : List BodyItem → Bool
  | [] => true
  | .comment _ :: _ => false
  | .stmt s :: rest => Stmt.srcFree s && BodyItem.listSrcFree rest

/-- Expression-list counterpart of `Stmt.srcFree`. -/
def Expr.listSrcFree : List Expr → Bool
  | [] => true
  | e :: es => Expr.srcFree e && Expr.listSrcFree es

/-- Array-elements counterpart of `Stmt.srcFree` (elisions are skipped,
mirroring the printer). -/
def Expr.elementsSrcFree : List (Option Expr) → Bool
  | [] => true
  | none :: es => Expr.elementsSrcFree es
  | some e :: es => Expr.srcFree e && Expr.elementsSrcFree es

/-- Property-list counterpart of `Stmt.srcFree`. -/
def ObjProperty.listSrcFree : List ObjProperty → Bool
  | [] => true
  | p :: ps => ObjProperty.srcFree p && ObjProperty.listSrcFree ps

/-- Declarator-list counterpart of `Stmt.srcFree`. -/
def Declarator.listSrcFree : List Declarator → Bool
  | [] => true
  | d :: ds => Declarator.srcFree d && Declarator.listSrcFree ds

end

/-- Node-level dispatch of the `srcFree` predicates. -/
def Node.srcFree : Node → Bool
  | .program body => BodyItem.listSrcFree body
  | .stmt s => Stmt.srcFree s
  | .declarator d => Declarator.srcFree d
  | .expr e => Expr.srcFree e
  | .property p => ObjProperty.srcFree p
  | .classElem _ _ _ body => BodyItem.listSrcFree body
  | .funcExpr _ body => BodyItem.listSrcFree body
  | .comment _ => false
  | .unknown _ => true

/-- Number of occurrences of a character in a string. -/
def charCount (c : Char) (s : String) : Nat := s.toList.count c

/-- A string containing no brace character. -/
def braceFree (s : String) : Bool :=
  (charCount '\x7b' s == 0) && (charCount '\x7d' s == 0)

mutual

/-- Every token string embedded in the rendering of this statement —
identifier names, literal raw texts, operators, parameter names, method
keys — is brace-free.  (Comment text is taken from the source buffer and
is covered by a separate brace-freeness hypothesis on the buffer.) -/
def Stmt.tokensBF : Stmt → Bool
  | .exprStmt e => Expr.tokensBF e
  | .varDecl _ ds => Declarator.listTokensBF ds
  | .ifStmt t c a => Expr.tokensBF t && Stmt.tokensBF c &&
      (match a with | none => true | some s => Stmt.tokensBF s)
  | .block body => BodyItem.listTokensBF body
  | .funcDecl id params body =>
      braceFree id && params.all braceFree && BodyItem.listTokensBF body
  | .classDecl id body => braceFree id && ClassItem.listTokensBF body
  | .ret a => (match a with | none => true | some e => Expr.tokensBF e)

/-- Expression counterpart of `Stmt.tokensBF`. -/
def Expr.tokensBF : Expr → Bool
  | .identifier name => braceFree name
  | .literal raw => braceFree raw
  | .binary op l r _ => braceFree op && Expr.tokensBF l && Expr.tokensBF r
  | .unary op a => braceFree op && Expr.tokensBF a
  | .call c args => Expr.tokensBF c && Expr.listTokensBF args
  | .member ob prop _ => Expr.tokensBF ob && braceFree prop
  | .arrayE els => Expr.elementsTokensBF els
  | .objectE props => ObjProperty.listTokensBF props
  | .arrow params b => params.all braceFree && ArrowBody.tokensBF b
  | .thisE => true
  | .spread a => Expr.tokensBF a
  | .conditional t c a _ => Expr.tokensBF t && Expr.tokensBF c && Expr.tokensBF a

/-- Arrow-body counterpart of `Stmt.tokensBF`. -/
def ArrowBody.tokensBF : ArrowBody → Bool
  | .expr e => Expr.tokensBF e
  | .block body => BodyItem.listTokensBF body

/-- Declarator counterpart of `Stmt.tokensBF`. -/
def Declarator.tokensBF : Declarator → Bool
  | .mk id i => braceFree id && (match i with | none => true | some e => Expr.tokensBF e)

/-- Property counterpart of `Stmt.tokensBF`. -/
def ObjProperty.tokensBF : ObjProperty → Bool
  | .mk k v => Expr.tokensBF k && Expr.tokensBF v

/-- Body-list counterpart of `Stmt.tokensBF`. -/
def BodyItem.listTokensBF : List BodyItem → Bool
  | [] => true
  | .comment _ :: rest => BodyItem.listTokensBF rest
  | .stmt s :: rest => Stmt.tokensBF s && BodyItem.listTokensBF rest

/-- Class-item counterpart of `Stmt.tokensBF`. -/
def ClassItem.listTokensBF : List ClassItem → Bool
  | [] => true
  | .comment _ :: rest => ClassItem.listTokensBF rest
  | .element key _ params fbody _ _ :: rest =>
      braceFree key && params.all braceFree && BodyItem.listTokensBF fbody &&
        ClassItem.listTokensBF rest

/-- Expression-list counterpart of `Stmt.tokensBF`. -/
def Expr.listTokensBF : List Expr → Bool
  | [] => true
  | e :: es => Expr.tokensBF e && Expr.listTokensBF es

/-- Array-elements counterpart of `Stmt.tokensBF`. -/
def Expr.elementsTokensBF : List (Option Expr) → Bool
  | [] => true
  | none :: es => Expr.elementsTokensBF es
  | some e :: es => Expr.tokensBF e && Expr.elementsTokensBF es

/-- Property-list counterpart of `Stmt.tokensBF`. -/
def ObjProperty.listTokensBF : List ObjProperty → Bool
  | [] => true
  | p :: ps => ObjProperty.tokensBF p && ObjProperty.listTokensBF ps

/-- Declarator-list counterpart of `Stmt.tokensBF`. -/
def Declarator.listTokensBF : List Declarator → Bool
  | [] => true
  | d :: ds => Declarator.tokensBF d && Declarator.listTokensBF ds

end

/-- Splits a character stream at newline characters. -/
def splitNl : List Char → List (List Char)
  | [] => [[]]
  | '\n' :: rest => [] :: splitNl rest
  | ch :: rest =>
    match splitNl rest with
    | [] => [[ch]]
    | l :: ls => (ch :: l) :: ls

/-- The physical lines of a rendered string. -/
def linesOf (s : String) : List String := (splitNl s.toList).map String.mk

/-- Concrete program used against the width claim: the expression
statement `a + b` (two identifiers and an operator). -/
def cexWidth : Node :=
  .program [.stmt (.exprStmt (.binary "+" (.identifier "a") (.identifier "b") 0))]

/-- Concrete program holding one comment node whose span `[14, 21)` covers
the text `// keep` of the buffer `const x = 10; // keep`. -/
def cexCmt : Node := .program [.comment ⟨"// keep", 14, 21⟩]

/-- Concrete program holding one comment node whose span covers the whole
(4-character) source buffer. -/
def cexSrc : Node := .program [.comment ⟨"", 0, 4⟩]

/-- The scenario program of the spec: `const x = 10;` followed by the
trailing comment `// keep` (span `[14, 21)` of
`const x = 10; // keep`). -/
def cexScenario : Node :=
  .program [.stmt (.varDecl .kconst [.mk "x" (some (.literal "10"))]),
    .comment ⟨"// keep", 14, 21⟩]

/-- Well-shaped printer result: whenever the indentation computation
succeeds the result is a success, and any error it carries is the
`repeat` range error (never the unsupported-node error). -/
def GoodE (o : Options) (r : Except PPErr α) : Prop :=
  (indentOk o = true → ∃ v, r = .ok v) ∧ ∀ e, r = .error e → e = PPErr.range

/-! ### Basic facts about `Except` and the string helpers -/

theorem exPure_eq_ok (a : α) : (pure a : Except PPErr α) = .ok a := rfl

theorem exOk_bind (a : α) (f : α → Except PPErr β) : (Except.ok a >>= f) = f a := rfl

theorem exError_bind (e : PPErr) (f : α → Except PPErr β) :
    ((Except.error e : Except PPErr α) >>= f) = .error e := rfl

theorem exBind_eq_ok {x : Except PPErr α} {f : α → Except PPErr β} {b : β} :
    (x >>= f) = .ok b ↔ ∃ a, x = .ok a ∧ f a = .ok b := by
  cases x with
  | error e => simp [exError_bind]
  | ok a => simp [exOk_bind]

/-! ### The printer never reads `printWidth`, `commentPlacement` or
`commentTypes`

The mutual lemmas below show that any two option records agreeing on
`tabWidth`, `useTabs`, `lineBreak`, `commentFormat` and
`commentPlacementFlag` produce identical output: the remaining fields —
`printWidth`, `commentPlacement`, `commentTypes` — are destructured by
every printer but never used. -/

mutual

theorem printStmt_unusedFields (pw₁ pw₂ : Int) (cp₁ cp₂ : String) (ct₁ ct₂ : Nat)
    (tw : Int) (ut lb : Bool) (cf : CommentFormat) (cpf : Nat)
    (s : Stmt) (src : String) :
    printStmt s (Options.mk pw₁ tw ut lb cp₁ cf ct₁ cpf) src
      = printStmt s (Options.mk pw₂ tw ut lb cp₂ cf ct₂ cpf) src := by
  cases s with
  | exprStmt e =>
    simp only [printStmt, printExpr_unusedFields pw₁ pw₂ cp₁ cp₂ ct₁ ct₂ tw ut lb cf cpf e src]
    try rfl
  | varDecl kind ds =>
    simp only [printStmt,
      printDeclaratorList_unusedFields pw₁ pw₂ cp₁ cp₂ ct₁ ct₂ tw ut lb cf cpf ds src]
    try rfl
  | ifStmt t c a =>
    cases a with
    | none =>
      simp only [printStmt,
        printExpr_unusedFields pw₁ pw₂ cp₁ cp₂ ct₁ ct₂ tw ut lb cf cpf t src,
        printStmt_unusedFields pw₁ pw₂ cp₁ cp₂ ct₁ ct₂ tw ut lb cf cpf c src]
      try rfl
    | some s2 =>
      simp only [printStmt,
        printExpr_unusedFields pw₁ pw₂ cp₁ cp₂ ct₁ ct₂ tw ut lb cf cpf t src,
        printStmt_unusedFields pw₁ pw₂ cp₁ cp₂ ct₁ ct₂ tw ut lb cf cpf c src,
        printStmt_unusedFields pw₁ pw₂ cp₁ cp₂ ct₁ ct₂ tw ut lb cf cpf s2 src]
      try rfl
  | block body =>
    simp only [printStmt,
      printBodyItems_unusedFields pw₁ pw₂ cp₁ cp₂ ct₁ ct₂ tw ut lb cf cpf body src]
    try rfl
  | funcDecl id params body =>
    simp only [printStmt,
      printBodyItems_unusedFields pw₁ pw₂ cp₁ cp₂ ct₁ ct₂ tw ut lb cf cpf body src]
    try rfl
  | classDecl id body =>
    simp only [printStmt,
      printClassItems_unusedFields pw₁ pw₂ cp₁ cp₂ ct₁ ct₂ tw ut lb cf cpf body src]
    try rfl
  | ret a =>
    cases a with
    | none => rfl
    | some e =>
      simp only [printStmt,
        printExpr_unusedFields pw₁ pw₂ cp₁ cp₂ ct₁ ct₂ tw ut lb cf cpf e src]
      try rfl

theorem printExpr_unusedFields (pw₁ pw₂ : Int) (cp₁ cp₂ : String) (ct₁ ct₂ : Nat)
    (tw : Int) (ut lb : Bool) (cf : CommentFormat) (cpf : Nat)
    (e : Expr) (src : String) :
    printExpr e (Options.mk pw₁ tw ut lb cp₁ cf ct₁ cpf) src
      = printExpr e (Options.mk pw₂ tw ut lb cp₂ cf ct₂ cpf) src := by
  cases e with
  | identifier name => rfl
  | literal raw => rfl
  | binary op l r lbk =>
    simp only [printExpr,
      printExpr_unusedFields pw₁ pw₂ cp₁ cp₂ ct₁ ct₂ tw ut lb cf cpf l src,
      printExpr_unusedFields pw₁ pw₂ cp₁ cp₂ ct₁ ct₂ tw ut lb cf cpf r src]
    try rfl
  | unary op a =>
    simp only [printExpr,
      printExpr_unusedFields pw₁ pw₂ cp₁ cp₂ ct₁ ct₂ tw ut lb cf cpf a src]
    try rfl
  | call c args =>
    simp only [printExpr,
      printExpr_unusedFields pw₁ pw₂ cp₁ cp₂ ct₁ ct₂ tw ut lb cf cpf c src,
      printExprList_unusedFields pw₁ pw₂ cp₁ cp₂ ct₁ ct₂ tw ut lb cf cpf args src]
    try rfl
  | member ob prop comp =>
    simp only [printExpr,
      printExpr_unusedFields pw₁ pw₂ cp₁ cp₂ ct₁ ct₂ tw ut lb cf cpf ob src]
    try rfl
  | arrayE els =>
    simp only [printExpr,
      printArrayElements_unusedFields pw₁ pw₂ cp₁ cp₂ ct₁ ct₂ tw ut lb cf cpf els src]
    try rfl
  | objectE props =>
    simp only [printExpr,
      printPropertyList_unusedFields pw₁ pw₂ cp₁ cp₂ ct₁ ct₂ tw ut lb cf cpf props src]
    try rfl
  | arrow params b =>
    cases b with
    | expr e2 =>
      simp only [printExpr,
        printExpr_unusedFields pw₁ pw₂ cp₁ cp₂ ct₁ ct₂ tw ut lb cf cpf e2 src]
      try rfl
    | block bs =>
      simp only [printExpr,
        printBodyItems_unusedFields pw₁ pw₂ cp₁ cp₂ ct₁ ct₂ tw ut lb cf cpf bs src]
      try rfl
  | thisE => rfl
  | spread a =>
    simp only [printExpr,
      printExpr_unusedFields pw₁ pw₂ cp₁ cp₂ ct₁ ct₂ tw ut lb cf cpf a src]
    try rfl
  | conditional t c a lbk =>
    simp only [printExpr,
      printExpr_unusedFields pw₁ pw₂ cp₁ cp₂ ct₁ ct₂ tw ut lb cf cpf t src,
      printExpr_unusedFields pw₁ pw₂ cp₁ cp₂ ct₁ ct₂ tw ut lb cf cpf c src,
      printExpr_unusedFields pw₁ pw₂ cp₁ cp₂ ct₁ ct₂ tw ut lb cf cpf a src]
    try rfl

theorem printDeclarator_unusedFields (pw₁ pw₂ : Int) (cp₁ cp₂ : String) (ct₁ ct₂ : Nat)
    (tw : Int) (ut lb : Bool) (cf : CommentFormat) (cpf : Nat)
    (d : Declarator) (src : String) :
    printDeclarator d (Options.mk pw₁ tw ut lb cp₁ cf ct₁ cpf) src
      = printDeclarator d (Options.mk pw₂ tw ut lb cp₂ cf ct₂ cpf) src := by
  cases d with
  | mk id init =>
    cases init with
    | none => rfl
    | some e =>
      simp only [printDeclarator,
        printExpr_unusedFields pw₁ pw₂ cp₁ cp₂ ct₁ ct₂ tw ut lb cf cpf e src]
      try rfl

theorem printProperty_unusedFields (pw₁ pw₂ : Int) (cp₁ cp₂ : String) (ct₁ ct₂ : Nat)
    (tw : Int) (ut lb : Bool) (cf : CommentFormat) (cpf : Nat)
    (p : ObjProperty) (src : String) :
    printProperty p (Options.mk pw₁ tw ut lb cp₁ cf ct₁ cpf) src
      = printProperty p (Options.mk pw₂ tw ut lb cp₂ cf ct₂ cpf) src := by
  cases p with
  | mk k v =>
    simp only [printProperty,
      printExpr_unusedFields pw₁ pw₂ cp₁ cp₂ ct₁ ct₂ tw ut lb cf cpf k src,
      printExpr_unusedFields pw₁ pw₂ cp₁ cp₂ ct₁ ct₂ tw ut lb cf cpf v src]
    try rfl

theorem printBodyItems_unusedFields (pw₁ pw₂ : Int) (cp₁ cp₂ : String) (ct₁ ct₂ : Nat)
    (tw : Int) (ut lb : Bool) (cf : CommentFormat) (cpf : Nat)
    (l : List BodyItem) (src : String) :
    printBodyItems l (Options.mk pw₁ tw ut lb cp₁ cf ct₁ cpf) src
      = printBodyItems l (Options.mk pw₂ tw ut lb cp₂ cf ct₂ cpf) src := by
  cases l with
  | nil => rfl
  | cons item rest =>
    cases item with
    | comment c =>
      simp only [printBodyItems,
        printBodyItems_unusedFields pw₁ pw₂ cp₁ cp₂ ct₁ ct₂ tw ut lb cf cpf rest src]
      try rfl
    | stmt s =>
      simp only [printBodyItems,
        printStmt_unusedFields pw₁ pw₂ cp₁ cp₂ ct₁ ct₂ tw ut lb cf cpf s src,
        printBodyItems_unusedFields pw₁ pw₂ cp₁ cp₂ ct₁ ct₂ tw ut lb cf cpf rest src]
      try rfl

theorem printClassItems_unusedFields (pw₁ pw₂ : Int) (cp₁ cp₂ : String) (ct₁ ct₂ : Nat)
    (tw : Int) (ut lb : Bool) (cf : CommentFormat) (cpf : Nat)
    (l : List ClassItem) (src : String) :
    printClassItems l (Options.mk pw₁ tw ut lb cp₁ cf ct₁ cpf) src
      = printClassItems l (Options.mk pw₂ tw ut lb cp₂ cf ct₂ cpf) src := by
  cases l with
  | nil => rfl
  | cons item rest =>
    cases item with
    | comment c =>
      simp only [printClassItems,
        printClassItems_unusedFields pw₁ pw₂ cp₁ cp₂ ct₁ ct₂ tw ut lb cf cpf rest src]
      try rfl
    | element key isStatic params fbody cstart cstop =>
      simp only [printClassItems,
        printBodyItems_unusedFields pw₁ pw₂ cp₁ cp₂ ct₁ ct₂ tw ut lb cf cpf fbody src,
        printClassItems_unusedFields pw₁ pw₂ cp₁ cp₂ ct₁ ct₂ tw ut lb cf cpf rest src]
      try rfl

theorem printExprList_unusedFields (pw₁ pw₂ : Int) (cp₁ cp₂ : String) (ct₁ ct₂ : Nat)
    (tw : Int) (ut lb : Bool) (cf : CommentFormat) (cpf : Nat)
    (l : List Expr) (src : String) :
    printExprList l (Options.mk pw₁ tw ut lb cp₁ cf ct₁ cpf) src
      = printExprList l (Options.mk pw₂ tw ut lb cp₂ cf ct₂ cpf) src := by
  cases l with
  | nil => rfl
  | cons e es =>
    simp only [printExprList,
      printExpr_unusedFields pw₁ pw₂ cp₁ cp₂ ct₁ ct₂ tw ut lb cf cpf e src,
      printExprList_unusedFields pw₁ pw₂ cp₁ cp₂ ct₁ ct₂ tw ut lb cf cpf es src]
    try rfl

theorem printArrayElements_unusedFields (pw₁ pw₂ : Int) (cp₁ cp₂ : String) (ct₁ ct₂ : Nat)
    (tw : Int) (ut lb : Bool) (cf : CommentFormat) (cpf : Nat)
    (l : List (Option Expr)) (src : String) :
    printArrayElements l (Options.mk pw₁ tw ut lb cp₁ cf ct₁ cpf) src
      = printArrayElements l (Options.mk pw₂ tw ut lb cp₂ cf ct₂ cpf) src := by
  cases l with
  | nil => rfl
  | cons oe es =>
    cases oe with
    | none =>
      simp only [printArrayElements,
        printArrayElements_unusedFields pw₁ pw₂ cp₁ cp₂ ct₁ ct₂ tw ut lb cf cpf es src]
      try rfl
    | some e =>
      simp only [printArrayElements,
        printExpr_unusedFields pw₁ pw₂ cp₁ cp₂ ct₁ ct₂ tw ut lb cf cpf e src,
        printArrayElements_unusedFields pw₁ pw₂ cp₁ cp₂ ct₁ ct₂ tw ut lb cf cpf es src]
      try rfl

theorem printPropertyList_unusedFields (pw₁ pw₂ : Int) (cp₁ cp₂ : String) (ct₁ ct₂ : Nat)
    (tw : Int) (ut lb : Bool) (cf : CommentFormat) (cpf : Nat)
    (l : List ObjProperty) (src : String) :
    printPropertyList l (Options.mk pw₁ tw ut lb cp₁ cf ct₁ cpf) src
      = printPropertyList l (Options.mk pw₂ tw ut lb cp₂ cf ct₂ cpf) src := by
  cases l with
  | nil => rfl
  | cons p ps =>
    simp only [printPropertyList,
      printProperty_unusedFields pw₁ pw₂ cp₁ cp₂ ct₁ ct₂ tw ut lb cf cpf p src,
      printPropertyList_unusedFields pw₁ pw₂ cp₁ cp₂ ct₁ ct₂ tw ut lb cf cpf ps src]
    try rfl

theorem printDeclaratorList_unusedFields (pw₁ pw₂ : Int) (cp₁ cp₂ : String) (ct₁ ct₂ : Nat)
    (tw : Int) (ut lb : Bool) (cf : CommentFormat) (cpf : Nat)
    (l : List Declarator) (src : String) :
    printDeclaratorList l (Options.mk pw₁ tw ut lb cp₁ cf ct₁ cpf) src
      = printDeclaratorList l (Options.mk pw₂ tw ut lb cp₂ cf ct₂ cpf) src := by
  cases l with
  | nil => rfl
  | cons d ds =>
    simp only [printDeclaratorList,
      printDeclarator_unusedFields pw₁ pw₂ cp₁ cp₂ ct₁ ct₂ tw ut lb cf cpf d src,
      printDeclaratorList_unusedFields pw₁ pw₂ cp₁ cp₂ ct₁ ct₂ tw ut lb cf cpf ds src]
    try rfl

end

/-- Node-level corollary of the `unusedFields` lemmas: `prettyPrint` does
not depend on `printWidth`, `commentPlacement` or `commentTypes`. -/
theorem prettyPrint_unusedFields (pw₁ pw₂ : Int) (cp₁ cp₂ : String) (ct₁ ct₂ : Nat)
    (tw : Int) (ut lb : Bool) (cf : CommentFormat) (cpf : Nat)
    (n : Node) (src : String) :
    prettyPrint n (Options.mk pw₁ tw ut lb cp₁ cf ct₁ cpf) src
      = prettyPrint n (Options.mk pw₂ tw ut lb cp₂ cf ct₂ cpf) src := by
  cases n with
  | program body =>
    simp only [prettyPrint, printProgram,
      printBodyItems_unusedFields pw₁ pw₂ cp₁ cp₂ ct₁ ct₂ tw ut lb cf cpf body src]
    try rfl
  | stmt s =>
    simp only [prettyPrint, printStmt_unusedFields pw₁ pw₂ cp₁ cp₂ ct₁ ct₂ tw ut lb cf cpf s src]
    try rfl
  | declarator d =>
    simp only [prettyPrint,
      printDeclarator_unusedFields pw₁ pw₂ cp₁ cp₂ ct₁ ct₂ tw ut lb cf cpf d src]
    try rfl
  | expr e =>
    simp only [prettyPrint, printExpr_unusedFields pw₁ pw₂ cp₁ cp₂ ct₁ ct₂ tw ut lb cf cpf e src]
    try rfl
  | property p =>
    simp only [prettyPrint,
      printProperty_unusedFields pw₁ pw₂ cp₁ cp₂ ct₁ ct₂ tw ut lb cf cpf p src]
    try rfl
  | classElem key isStatic params body =>
    simp only [prettyPrint, printClassElement,
      printBodyItems_unusedFields pw₁ pw₂ cp₁ cp₂ ct₁ ct₂ tw ut lb cf cpf body src]
    try rfl
  | funcExpr params body =>
    simp only [prettyPrint, printFunctionExpression,
      printBodyItems_unusedFields pw₁ pw₂ cp₁ cp₂ ct₁ ct₂ tw ut lb cf cpf body src]
    try rfl
  | comment c => rfl
  | unknown tag => rfl

/-! ### Source-buffer independence for comment-free trees

The printers read the ambient source buffer only through `printComment`
and the class-element comment collection.  For trees satisfying the
`srcFree` predicates, the output is the same for any two buffers. -/

mutual

theorem printStmt_srcFree (s : Stmt) (o : Options) (sa sb : String)
    (h : Stmt.srcFree s = true) : printStmt s o sa = printStmt s o sb := by
  cases s with
  | exprStmt e =>
    simp only [Stmt.srcFree] at h
    simp only [printStmt, printExpr_srcFree e o sa sb h]
  | varDecl kind ds =>
    simp only [Stmt.srcFree] at h
    simp only [printStmt, printDeclaratorList_srcFree ds o sa sb h]
  | ifStmt t c a =>
    cases a with
    | none =>
      simp only [Stmt.srcFree, Bool.and_eq_true] at h
      simp only [printStmt, printExpr_srcFree t o sa sb h.1.1,
        printStmt_srcFree c o sa sb h.1.2]
    | some s2 =>
      simp only [Stmt.srcFree, Bool.and_eq_true] at h
      simp only [printStmt, printExpr_srcFree t o sa sb h.1.1,
        printStmt_srcFree c o sa sb h.1.2, printStmt_srcFree s2 o sa sb h.2]
  | block body =>
    simp only [Stmt.srcFree] at h
    simp only [printStmt, printBodyItems_srcFree body o sa sb h]
  | funcDecl id params body =>
    simp only [Stmt.srcFree] at h
    simp only [printStmt, printBodyItems_srcFree body o sa sb h]
  | classDecl id body =>
    simp only [Stmt.srcFree] at h
    cases body with
    | nil => rfl
    | cons item rest => simp [List.isEmpty] at h
  | ret a =>
    cases a with
    | none => rfl
    | some e =>
      simp only [Stmt.srcFree] at h
      simp only [printStmt, printExpr_srcFree e o sa sb h]

theorem printExpr_srcFree (e : Expr) (o : Options) (sa sb : String)
    (h : Expr.srcFree e = true) : printExpr e o sa = printExpr e o sb := by
  cases e with
  | identifier name => rfl
  | literal raw => rfl
  | binary op l r lbk =>
    simp only [Expr.srcFree, Bool.and_eq_true] at h
    simp only [printExpr, printExpr_srcFree l o sa sb h.1,
      printExpr_srcFree r o sa sb h.2]
  | unary op a =>
    simp only [Expr.srcFree] at h
    simp only [printExpr, printExpr_srcFree a o sa sb h]
  | call c args =>
    simp only [Expr.srcFree, Bool.and_eq_true] at h
    simp only [printExpr, printExpr_srcFree c o sa sb h.1,
      printExprList_srcFree args o sa sb h.2]
  | member ob prop comp =>
    simp only [Expr.srcFree] at h
    simp only [printExpr, printExpr_srcFree ob o sa sb h]
  | arrayE els =>
    simp only [Expr.srcFree] at h
    simp only [printExpr, printArrayElements_srcFree els o sa sb h]
  | objectE props =>
    simp only [Expr.srcFree] at h
    simp only [printExpr, printPropertyList_srcFree props o sa sb h]
  | arrow params b =>
    cases b with
    | expr e2 =>
      simp only [Expr.srcFree, ArrowBody.srcFree] at h
      simp only [printExpr, printExpr_srcFree e2 o sa sb h]
    | block bs =>
      simp only [Expr.srcFree, ArrowBody.srcFree] at h
      simp only [printExpr, printBodyItems_srcFree bs o sa sb h]
  | thisE => rfl
  | spread a =>
    simp only [Expr.srcFree] at h
    simp only [printExpr, printExpr_srcFree a o sa sb h]
  | conditional t c a lbk =>
    simp only [Expr.srcFree, Bool.and_eq_true] at h
    simp only [printExpr, printExpr_srcFree t o sa sb h.1.1,
      printExpr_srcFree c o sa sb h.1.2, printExpr_srcFree a o sa sb h.2]

theorem printDeclarator_srcFree (d : Declarator) (o : Options) (sa sb : String)
    (h : Declarator.srcFree d = true) : printDeclarator d o sa = printDeclarator d o sb := by
  cases d with
  | mk id init =>
    cases init with
    | none => rfl
    | some e =>
      simp only [Declarator.srcFree] at h
      simp only [printDeclarator, printExpr_srcFree e o sa sb h]

theorem printProperty_srcFree (p : ObjProperty) (o : Options) (sa sb : String)
    (h : ObjProperty.srcFree p = true) : printProperty p o sa = printProperty p o sb := by
  cases p with
  | mk k v =>
    simp only [ObjProperty.srcFree, Bool.and_eq_true] at h
    simp only [printProperty, printExpr_srcFree k o sa sb h.1,
      printExpr_srcFree v o sa sb h.2]

theorem printBodyItems_srcFree (l : List BodyItem) (o : Options) (sa sb : String)
    (h : BodyItem.listSrcFree l = true) : printBodyItems l o sa = printBodyItems l o sb := by
  cases l with
  | nil => rfl
  | cons item rest =>
    cases item with
    | comment c => simp [BodyItem.listSrcFree] at h
    | stmt s =>
      simp only [BodyItem.listSrcFree, Bool.and_eq_true] at h
      simp only [printBodyItems, printStmt_srcFree s o sa sb h.1,
        printBodyItems_srcFree rest o sa sb h.2]

theorem printExprList_srcFree (l : List Expr) (o : Options) (sa sb : String)
    (h : Expr.listSrcFree l = true) : printExprList l o sa = printExprList l o sb := by
  cases l with
  | nil => rfl
  | cons e es =>
    simp only [Expr.listSrcFree, Bool.and_eq_true] at h
    simp only [printExprList, printExpr_srcFree e o sa sb h.1,
      printExprList_srcFree es o sa sb h.2]

theorem printArrayElements_srcFree (l : List (Option Expr)) (o : Options) (sa sb : String)
    (h : Expr.elementsSrcFree l = true) :
    printArrayElements l o sa = printArrayElements l o sb := by
  cases l with
  | nil => rfl
  | cons oe es =>
    cases oe with
    | none =>
      simp only [Expr.elementsSrcFree] at h
      simp only [printArrayElements, printArrayElements_srcFree es o sa sb h]
    | some e =>
      simp only [Expr.elementsSrcFree, Bool.and_eq_true] at h
      simp only [printArrayElements, printExpr_srcFree e o sa sb h.1,
        printArrayElements_srcFree es o sa sb h.2]

theorem printPropertyList_srcFree (l : List ObjProperty) (o : Options) (sa sb : String)
    (h : ObjProperty.listSrcFree l = true) :
    printPropertyList l o sa = printPropertyList l o sb := by
  cases l with
  | nil => rfl
  | cons p ps =>
    simp only [ObjProperty.listSrcFree, Bool.and_eq_true] at h
    simp only [printPropertyList, printProperty_srcFree p o sa sb h.1,
      printPropertyList_srcFree ps o sa sb h.2]

theorem printDeclaratorList_srcFree (l : List Declarator) (o : Options) (sa sb : String)
    (h : Declarator.listSrcFree l = true) :
    printDeclaratorList l o sa = printDeclaratorList l o sb := by
  cases l with
  | nil => rfl
  | cons d ds =>
    simp only [Declarator.listSrcFree, Bool.and_eq_true] at h
    simp only [printDeclaratorList, printDeclarator_srcFree d o sa sb h.1,
      printDeclaratorList_srcFree ds o sa sb h.2]

end

/-- Node-level corollary: `prettyPrint` on a `srcFree` node is independent
of the ambient source buffer. -/
theorem prettyPrint_srcFree (n : Node) (o : Options) (sa sb : String)
    (h : Node.srcFree n = true) : prettyPrint n o sa = prettyPrint n o sb := by
  cases n with
  | program body =>
    simp only [Node.srcFree] at h
    simp only [prettyPrint, printProgram, printBodyItems_srcFree body o sa sb h]
  | stmt s =>
    simp only [Node.srcFree] at h
    simp only [prettyPrint, printStmt_srcFree s o sa sb h]
  | declarator d =>
    simp only [Node.srcFree] at h
    simp only [prettyPrint, printDeclarator_srcFree d o sa sb h]
  | expr e =>
    simp only [Node.srcFree] at h
    simp only [prettyPrint, printExpr_srcFree e o sa sb h]
  | property p =>
    simp only [Node.srcFree] at h
    simp only [prettyPrint, printProperty_srcFree p o sa sb h]
  | classElem key isStatic params body =>
    simp only [Node.srcFree] at h
    simp only [prettyPrint, printClassElement, printBodyItems_srcFree body o sa sb h]
  | funcExpr params body =>
    simp only [Node.srcFree] at h
    simp only [prettyPrint, printFunctionExpression, printBodyItems_srcFree body o sa sb h]
  | comment c => simp [Node.srcFree] at h
  | unknown tag => rfl

/-! ### Error shape of every printer

The only `throw` reachable from the typed printers is the `RangeError` of
`' '.repeat(tabWidth)`; in particular no typed node ever produces the
unsupported-node error, and when the indentation computation succeeds the
printers always return a string. -/

theorem goodE_ok (o : Options) (v : α) : GoodE o (Except.ok v) :=
  ⟨fun _ => ⟨v, rfl⟩, fun e h => by cases h⟩

theorem goodE_pure (o : Options) (v : α) : GoodE o (pure v : Except PPErr α) :=
  goodE_ok o v

theorem goodE_indentationOf (o : Options) : GoodE o (indentationOf o) := by
  constructor
  · intro h
    simp only [indentOk, Bool.or_eq_true, decide_eq_true_eq] at h
    unfold indentationOf
    cases hut : o.useTabs with
    | true => exact ⟨"\t", by simp⟩
    | false =>
      simp only [hut, Bool.false_eq_true, if_false]
      have hge : ¬o.tabWidth < 0 := by
        rcases h with h | h
        · rw [hut] at h; cases h
        · omega
      exact ⟨String.mk (List.replicate o.tabWidth.toNat ' '), by simp [hut, hge]⟩
  · intro e he
    unfold indentationOf at he
    split at he
    · cases he
    · split at he
      · cases he; rfl
      · cases he

theorem goodE_bind {o : Options} {x : Except PPErr α} {f : α → Except PPErr β}
    (hx : GoodE o x) (hf : ∀ v, x = .ok v → GoodE o (f v)) : GoodE o (x >>= f) := by
  constructor
  · intro hok
    obtain ⟨v, hv⟩ := hx.1 hok
    obtain ⟨w, hw⟩ := (hf v hv).1 hok
    exact ⟨w, by rw [hv, exOk_bind, hw]⟩
  · intro e he
    cases hx2 : x with
    | error e2 =>
      rw [hx2, exError_bind] at he
      cases he
      exact hx.2 _ hx2
    | ok v =>
      rw [hx2, exOk_bind] at he
      exact (hf v hx2).2 _ he

theorem goodE_exMapM {o : Options} {f : α → Except PPErr β} (l : List α)
    (h : ∀ a ∈ l, GoodE o (f a)) : GoodE o (exMapM f l) := by
  induction l with
  | nil => exact goodE_ok o []
  | cons a as ih =>
    exact goodE_bind (h a (by simp))
      (fun v _ => goodE_bind (ih (fun b hb => h b (by simp [hb])))
        (fun w _ => goodE_ok o _))

theorem goodE_printIdentifier (name : String) (o : Options) :
    GoodE o (printIdentifier name o) :=
  goodE_bind (goodE_indentationOf o) (fun ind _ => goodE_ok o _)

theorem goodE_printLiteral (raw : String) (o : Options) :
    GoodE o (printLiteral raw o) :=
  goodE_bind (goodE_indentationOf o) (fun ind _ => goodE_ok o _)

theorem goodE_printThis (o : Options) : GoodE o (printThisExpression o) :=
  goodE_bind (goodE_indentationOf o) (fun ind _ => goodE_ok o _)

theorem goodE_printComment (c : RawComment) (o : Options) (src : String) :
    GoodE o (printComment c o src) := by
  refine goodE_bind (goodE_indentationOf o) (fun ind _ => ?_)
  cases o.commentFormat <;> exact goodE_ok o _

mutual

theorem printStmt_good (s : Stmt) (o : Options) (src : String) :
    GoodE o (printStmt s o src) := by
  cases s with
  | exprStmt e =>
    exact goodE_bind (goodE_indentationOf o) (fun ind _ =>
      goodE_bind (printExpr_good e o src) (fun eOut _ => goodE_ok o _))
  | varDecl kind ds =>
    exact goodE_bind (goodE_indentationOf o) (fun ind _ =>
      goodE_bind (printDeclaratorList_good ds o src) (fun parts _ => goodE_ok o _))
  | ifStmt t c a =>
    cases a with
    | none =>
      exact goodE_bind (goodE_indentationOf o) (fun ind _ =>
        goodE_bind (printExpr_good t o src) (fun tOut _ =>
          goodE_bind (printStmt_good c o src) (fun cOut _ =>
            goodE_bind (goodE_pure o "") (fun aOut _ => goodE_ok o _))))
    | some s2 =>
      exact goodE_bind (goodE_indentationOf o) (fun ind _ =>
        goodE_bind (printExpr_good t o src) (fun tOut _ =>
          goodE_bind (printStmt_good c o src) (fun cOut _ =>
            goodE_bind
              (goodE_bind (printStmt_good s2 o src) (fun x _ => goodE_pure o _))
              (fun aOut _ => goodE_ok o _))))
  | block body =>
    exact goodE_bind (goodE_indentationOf o) (fun ind _ =>
      goodE_bind (printBodyItems_good body o src) (fun pieces _ => goodE_ok o _))
  | funcDecl id params body =>
    exact goodE_bind (goodE_indentationOf o) (fun ind _ =>
      goodE_bind (goodE_printIdentifier id o) (fun idOut _ =>
        goodE_bind (goodE_exMapM params (fun pn _ => goodE_printIdentifier pn o))
          (fun ps _ =>
            goodE_bind (printBodyItems_good body o src) (fun pieces _ => goodE_ok o _))))
  | classDecl id body =>
    exact goodE_bind (goodE_indentationOf o) (fun ind _ =>
      goodE_bind (goodE_printIdentifier id o) (fun idOut _ =>
        goodE_bind (printClassItems_good body o src) (fun pieces _ => goodE_ok o _)))
  | ret a =>
    cases a with
    | none =>
      exact goodE_bind (goodE_indentationOf o) (fun ind _ =>
        goodE_bind (goodE_pure o "") (fun aOut _ => goodE_ok o _))
    | some e =>
      exact goodE_bind (goodE_indentationOf o) (fun ind _ =>
        goodE_bind
          (goodE_bind (printExpr_good e o src) (fun x _ => goodE_pure o _))
          (fun aOut _ => goodE_ok o _))

theorem printExpr_good (e : Expr) (o : Options) (src : String) :
    GoodE o (printExpr e o src) := by
  cases e with
  | identifier name => exact goodE_printIdentifier name o
  | literal raw => exact goodE_printLiteral raw o
  | binary op l r lbk =>
    exact goodE_bind (goodE_indentationOf o) (fun ind _ =>
      goodE_bind (printExpr_good l o src) (fun lOut _ =>
        goodE_bind (printExpr_good r o src) (fun rOut _ => goodE_ok o _)))
  | unary op a =>
    exact goodE_bind (goodE_indentationOf o) (fun ind _ =>
      goodE_bind (printExpr_good a o src) (fun aOut _ => goodE_ok o _))
  | call c args =>
    exact goodE_bind (goodE_indentationOf o) (fun ind _ =>
      goodE_bind (printExpr_good c o src) (fun cOut _ =>
        goodE_bind (printExprList_good args o src) (fun argOuts _ => goodE_ok o _)))
  | member ob prop comp =>
    exact goodE_bind (goodE_indentationOf o) (fun ind _ =>
      goodE_bind (printExpr_good ob o src) (fun oOut _ =>
        goodE_bind (goodE_printIdentifier prop o) (fun pOut _ => goodE_ok o _)))
  | arrayE els =>
    exact goodE_bind (goodE_indentationOf o) (fun ind _ =>
      goodE_bind (printArrayElements_good els o src) (fun outs _ => goodE_ok o _))
  | objectE props =>
    exact goodE_bind (goodE_indentationOf o) (fun ind _ =>
      goodE_bind (printPropertyList_good props o src) (fun outs _ => goodE_ok o _))
  | arrow params b =>
    cases b with
    | expr e2 =>
      exact goodE_bind (goodE_indentationOf o) (fun ind _ =>
        goodE_bind (goodE_exMapM params (fun pn _ => goodE_printIdentifier pn o))
          (fun ps _ =>
            goodE_bind (printExpr_good e2 o src) (fun b _ => goodE_ok o _)))
    | block bs =>
      exact goodE_bind (goodE_indentationOf o) (fun ind _ =>
        goodE_bind (goodE_exMapM params (fun pn _ => goodE_printIdentifier pn o))
          (fun ps _ =>
            goodE_bind
              (goodE_bind (printBodyItems_good bs o src) (fun pieces _ => goodE_pure o _))
              (fun b _ => goodE_ok o _)))
  | thisE => exact goodE_printThis o
  | spread a =>
    exact goodE_bind (goodE_indentationOf o) (fun ind _ =>
      goodE_bind (printExpr_good a o src) (fun aOut _ => goodE_ok o _))
  | conditional t c a lbk =>
    exact goodE_bind (goodE_indentationOf o) (fun ind _ =>
      goodE_bind (printExpr_good t o src) (fun tOut _ =>
        goodE_bind (printExpr_good c o src) (fun cOut _ =>
          goodE_bind (printExpr_good a o src) (fun aOut _ => goodE_ok o _))))

theorem printDeclarator_good (d : Declarator) (o : Options) (src : String) :
    GoodE o (printDeclarator d o src) := by
  cases d with
  | mk id init =>
    cases init with
    | none =>
      exact goodE_bind (goodE_indentationOf o) (fun ind _ =>
        goodE_bind (goodE_printIdentifier id o) (fun idOut _ =>
          goodE_bind (goodE_pure o "") (fun initOut _ => goodE_ok o _)))
    | some e =>
      exact goodE_bind (goodE_indentationOf o) (fun ind _ =>
        goodE_bind (goodE_printIdentifier id o) (fun idOut _ =>
          goodE_bind
            (goodE_bind (printExpr_good e o src) (fun x _ => goodE_pure o _))
            (fun initOut _ => goodE_ok o _)))

theorem printProperty_good (p : ObjProperty) (o : Options) (src : String) :
    GoodE o (printProperty p o src) := by
  cases p with
  | mk k v =>
    exact goodE_bind (goodE_indentationOf o) (fun ind _ =>
      goodE_bind (printExpr_good k o src) (fun kOut _ =>
        goodE_bind (printExpr_good v o src) (fun vOut _ => goodE_ok o _)))

theorem printBodyItems_good (l : List BodyItem) (o : Options) (src : String) :
    GoodE o (printBodyItems l o src) := by
  cases l with
  | nil => exact goodE_ok o []
  | cons item rest =>
    cases item with
    | comment c =>
      exact goodE_bind (goodE_printComment c o src) (fun piece _ =>
        goodE_bind (printBodyItems_good rest o src) (fun pieces _ => goodE_ok o _))
    | stmt s =>
      exact goodE_bind
        (goodE_bind (printStmt_good s o src) (fun x _ => goodE_pure o _))
        (fun piece _ =>
          goodE_bind (printBodyItems_good rest o src) (fun pieces _ => goodE_ok o _))

theorem printClassItems_good (l : List ClassItem) (o : Options) (src : String) :
    GoodE o (printClassItems l o src) := by
  cases l with
  | nil => exact goodE_ok o []
  | cons item rest =>
    cases item with
    | comment c =>
      exact goodE_bind (goodE_printComment c o src) (fun piece _ =>
        goodE_bind (printClassItems_good rest o src) (fun pieces _ => goodE_ok o _))
    | element key isStatic params fbody cstart cstop =>
      refine goodE_bind ?_ (fun piece _ =>
        goodE_bind (printClassItems_good rest o src) (fun pieces _ => goodE_ok o _))
      refine goodE_bind (goodE_indentationOf o) (fun ind _ => ?_)
      refine goodE_bind (goodE_exMapM params (fun pn _ => goodE_printIdentifier pn o))
        (fun ps _ => ?_)
      refine goodE_bind (printBodyItems_good fbody o src) (fun pieces _ => ?_)
      split
      · exact goodE_bind (goodE_pure o _) (fun y _ => goodE_pure o _)
      · split
        · exact goodE_bind (goodE_printIdentifier key o) (fun keyOut _ =>
            goodE_bind (goodE_pure o _) (fun y _ => goodE_pure o _))
        · exact goodE_bind (goodE_printIdentifier key o) (fun keyOut _ =>
            goodE_bind (goodE_pure o _) (fun y _ => goodE_pure o _))

theorem printExprList_good (l : List Expr) (o : Options) (src : String) :
    GoodE o (printExprList l o src) := by
  cases l with
  | nil => exact goodE_ok o []
  | cons e es =>
    exact goodE_bind (printExpr_good e o src) (fun x _ =>
      goodE_bind (printExprList_good es o src) (fun xs _ => goodE_ok o _))

theorem printArrayElements_good (l : List (Option Expr)) (o : Options) (src : String) :
    GoodE o (printArrayElements l o src) := by
  cases l with
  | nil => exact goodE_ok o []
  | cons oe es =>
    cases oe with
    | none => exact printArrayElements_good es o src
    | some e =>
      exact goodE_bind (printExpr_good e o src) (fun x _ =>
        goodE_bind (printArrayElements_good es o src) (fun xs _ => goodE_ok o _))

theorem printPropertyList_good (l : List ObjProperty) (o : Options) (src : String) :
    GoodE o (printPropertyList l o src) := by
  cases l with
  | nil => exact goodE_ok o []
  | cons p ps =>
    exact goodE_bind (printProperty_good p o src) (fun x _ =>
      goodE_bind (printPropertyList_good ps o src) (fun xs _ => goodE_ok o _))

theorem printDeclaratorList_good (l : List Declarator) (o : Options) (src : String) :
    GoodE o (printDeclaratorList l o src) := by
  cases l with
  | nil => exact goodE_ok o []
  | cons d ds =>
    exact goodE_bind (printDeclarator_good d o src) (fun x _ =>
      goodE_bind (printDeclaratorList_good ds o src) (fun xs _ => goodE_ok o _))

end

/-- Node-level corollary: on supported nodes `prettyPrint` is well
shaped — it can only fail with the range error, and succeeds whenever the
indentation computation does. -/
theorem prettyPrint_good (n : Node) (o : Options) (src : String)
    (h : Node.supported n = true) : GoodE o (prettyPrint n o src) := by
  cases n with
  | program body =>
    exact goodE_bind (goodE_indentationOf o) (fun ind _ =>
      goodE_bind (printBodyItems_good body o src) (fun pieces _ => goodE_ok o _))
  | stmt s => exact printStmt_good s o src
  | declarator d => exact printDeclarator_good d o src
  | expr e => exact printExpr_good e o src
  | property p => exact printProperty_good p o src
  | classElem key isStatic params body =>
    refine goodE_bind (goodE_indentationOf o) (fun ind _ => ?_)
    refine goodE_bind (goodE_exMapM params (fun pn _ => goodE_printIdentifier pn o))
      (fun ps _ => ?_)
    refine goodE_bind (printBodyItems_good body o src) (fun pieces _ => ?_)
    show GoodE o (if key == "constructor" then _ else _)
    split
    · exact goodE_ok o _
    · split
      · exact goodE_bind (goodE_printIdentifier key o) (fun keyOut _ => goodE_ok o _)
      · exact goodE_bind (goodE_printIdentifier key o) (fun keyOut _ => goodE_ok o _)
  | funcExpr params body =>
    exact goodE_bind (goodE_indentationOf o) (fun ind _ =>
      goodE_bind (goodE_exMapM params (fun pn _ => goodE_printIdentifier pn o))
        (fun ps _ =>
          goodE_bind (printBodyItems_good body o src) (fun pieces _ => goodE_ok o _)))
  | comment c => exact goodE_printComment c o src
  | unknown tag => simp [Node.supported] at h

/-! ### Character-count toolbox for the brace-balance argument -/

theorem strToList_append (a b : String) : (a ++ b).toList = a.toList ++ b.toList := rfl

theorem charCount_append (c : Char) (a b : String) :
    charCount c (a ++ b) = charCount c a + charCount c b := by
  simp [charCount, strToList_append, List.count_append]

theorem charCount_nil (c : Char) : charCount c "" = 0 := rfl

theorem charCount_jsConcat_foldl (c : Char) :
    ∀ (l : List String) (init : String),
      charCount c (l.foldl (· ++ ·) init) = charCount c init + (l.map (charCount c)).sum := by
  intro l
  induction l with
  | nil => intro init; simp
  | cons a as ih =>
    intro init
    simp only [List.foldl_cons, ih (init ++ a), charCount_append, List.map_cons, List.sum_cons]
    omega

theorem charCount_jsConcat (c : Char) (l : List String) :
    charCount c (jsConcat l) = (l.map (charCount c)).sum := by
  simp [jsConcat, charCount_jsConcat_foldl, charCount_nil]

theorem charCount_jsJoin_foldl (c : Char) (sep : String) (hsep : charCount c sep = 0) :
    ∀ (l : List String) (init : String),
      charCount c (l.foldl (fun acc s => acc ++ sep ++ s) init)
        = charCount c init + (l.map (charCount c)).sum := by
  intro l
  induction l with
  | nil => intro init; simp
  | cons a as ih =>
    intro init
    simp only [List.foldl_cons, ih (init ++ sep ++ a), charCount_append, hsep,
      List.map_cons, List.sum_cons]
    omega

theorem charCount_jsJoin (c : Char) (sep : String) (hsep : charCount c sep = 0)
    (l : List String) : charCount c (jsJoin sep l) = (l.map (charCount c)).sum := by
  cases l with
  | nil => simp [jsJoin, charCount_nil]
  | cons a as => simp [jsJoin, charCount_jsJoin_foldl c sep hsep, List.sum_cons]

theorem count_dropWhile {p : Char → Bool} {c : Char} (hc : p c = false) :
    ∀ l : List Char, (l.dropWhile p).count c = l.count c := by
  intro l
  induction l with
  | nil => rfl
  | cons a as ih =>
    by_cases hpa : p a = true
    · have hac : (a == c) = false := by
        by_cases h : a = c
        · subst h; rw [hpa] at hc; cases hc
        · simp [h]
      simp [List.dropWhile_cons, hpa, ih, List.count_cons, hac]
    · simp [List.dropWhile_cons, hpa]

theorem charCount_jsTrim (c : Char) (hc : c.isWhitespace = false) (s : String) :
    charCount c (jsTrim s) = charCount c s := by
  simp [charCount, jsTrim, List.count_reverse, count_dropWhile hc]

theorem charCount_jsSubstring_le (c : Char) (s : String) (a b : Nat) :
    charCount c (jsSubstring s a b) ≤ charCount c s := by
  have h1 : List.Sublist ((s.toList.take (max a b)).drop (min a b))
      (s.toList.take (max a b)) := List.drop_sublist _ _
  have h2 : List.Sublist (s.toList.take (max a b)) s.toList := List.take_sublist _ _
  exact (h1.trans h2).count_le c

theorem charCount_jsSubstring_zero (c : Char) (s : String) (a b : Nat)
    (h : charCount c s = 0) : charCount c (jsSubstring s a b) = 0 :=
  Nat.le_zero.mp (h ▸ charCount_jsSubstring_le c s a b)

theorem braceFree_opens {s : String} (h : braceFree s = true) : charCount '\x7b' s = 0 := by
  simp only [braceFree, Bool.and_eq_true, beq_iff_eq] at h
  exact h.1

theorem braceFree_closes {s : String} (h : braceFree s = true) : charCount '\x7d' s = 0 := by
  simp only [braceFree, Bool.and_eq_true, beq_iff_eq] at h
  exact h.2

theorem varKindStr_braceFree (k : VarKind) : braceFree k.str = true := by
  cases k <;> decide

theorem indentation_charCount (o : Options) (ind : String)
    (h : indentationOf o = .ok ind) (c : Char) (hc1 : c ≠ '\t') (hc2 : c ≠ ' ') :
    charCount c ind = 0 := by
  unfold indentationOf at h
  split at h
  · cases h
    simp [charCount, List.count_cons, Ne.symm hc1]
  · split at h
    · cases h
    · cases h
      simp [charCount, List.count_replicate, Ne.symm hc2]

theorem indentation_opens (o : Options) (ind : String) (h : indentationOf o = .ok ind) :
    charCount '\x7b' ind = 0 :=
  indentation_charCount o ind h '\x7b' (by decide) (by decide)

theorem indentation_closes (o : Options) (ind : String) (h : indentationOf o = .ok ind) :
    charCount '\x7d' ind = 0 :=
  indentation_charCount o ind h '\x7d' (by decide) (by decide)

theorem printIdentifier_braces (name : String) (o : Options) (out : String)
    (h : printIdentifier name o = .ok out) (hn : braceFree name = true) :
    charCount '\x7b' out = 0 ∧ charCount '\x7d' out = 0 := by
  simp only [printIdentifier, exBind_eq_ok] at h
  obtain ⟨ind, hind, hout⟩ := h
  cases hout
  constructor
  · simp [charCount_append, indentation_opens o ind hind, braceFree_opens hn]
  · simp [charCount_append, indentation_closes o ind hind, braceFree_closes hn]

theorem exMapM_printIdentifier_braces (params : List String) (o : Options)
    (outs : List String) (h : exMapM (fun pn => printIdentifier pn o) params = .ok outs)
    (hp : params.all braceFree = true) :
    ∀ x ∈ outs, charCount '\x7b' x = 0 ∧ charCount '\x7d' x = 0 := by
  induction params generalizing outs with
  | nil =>
    simp only [exMapM] at h
    cases h
    intro x hx
    cases hx
  | cons a as ih =>
    simp only [exMapM, exBind_eq_ok] at h
    obtain ⟨b, hb, bs, hbs, hout⟩ := h
    cases hout
    simp only [List.all_cons, Bool.and_eq_true] at hp
    intro x hx
    cases hx with
    | head => exact printIdentifier_braces a o b hb hp.1
    | tail _ hx2 => exact ih bs hbs hp.2 x hx2

theorem printComment_braces (c : RawComment) (o : Options) (src : String) (out : String)
    (h : printComment c o src = .ok out) (hs : braceFree src = true) :
    charCount '\x7b' out = 0 ∧ charCount '\x7d' out = 0 := by
  simp only [printComment, exBind_eq_ok] at h
  obtain ⟨ind, hind, hout⟩ := h
  have ho := indentation_opens o ind hind
  have hcl := indentation_closes o ind hind
  have hso := charCount_jsSubstring_zero '\x7b' src c.start c.stop (braceFree_opens hs)
  have hsc := charCount_jsSubstring_zero '\x7d' src c.start c.stop (braceFree_closes hs)
  cases hcf : o.commentFormat <;> rw [hcf] at hout <;> cases hout <;>
    constructor <;> simp [charCount_append, ho, hcl, hso, hsc] <;> decide

theorem classElementComments_braces (o : Options) (src : String) (a b : Nat)
    (hs : braceFree src = true) :
    charCount '\x7b' (classElementComments o src a b) = 0 ∧
      charCount '\x7d' (classElementComments o src a b) = 0 := by
  unfold classElementComments
  constructor <;>
  · rw [charCount_jsJoin _ "\n" (by decide)]
    refine List.sum_eq_zero ?_
    intro x hx
    simp only [List.mem_map] at hx
    obtain ⟨y, ⟨cm, hcm, hwrap⟩, hcc⟩ := hx
    subst hcc
    subst hwrap
    have hso := charCount_jsSubstring_zero '\x7b' src cm.start cm.stop (braceFree_opens hs)
    have hsc := charCount_jsSubstring_zero '\x7d' src cm.start cm.stop (braceFree_closes hs)
    cases o.commentFormat <;>
      · simp only [charCount_append, hso, hsc]
        decide

/-! ### Brace balance of every printer output

The printers emit `{` and `}` in matched pairs (blocks, class bodies) with
a single exception: `printObjectExpression` emits an opening `{` with no
closing `}`.  The mutual lemmas below establish the invariant that —
whenever all embedded token strings and the source buffer are brace
free — every printed fragment has at least as many `{` as `}`. -/

theorem charCount_ite {c : Char} {p : Prop} [Decidable p] {a b : String}
    (ha : charCount c a = 0) (hb : charCount c b = 0) :
    charCount c (if p then a else b) = 0 := by
  split <;> assumption

theorem sum_counts_le (pieces : List String)
    (hp : ∀ x ∈ pieces, charCount '\x7d' x ≤ charCount '\x7b' x) :
    (pieces.map (charCount '\x7d')).sum ≤ (pieces.map (charCount '\x7b')).sum :=
  List.sum_le_sum hp

theorem sum_counts_zero (c : Char) (outs : List String)
    (h : ∀ x ∈ outs, charCount c x = 0) : (outs.map (charCount c)).sum = 0 := by
  refine List.sum_eq_zero ?_
  intro x hx
  simp only [List.mem_map] at hx
  obtain ⟨y, hy, hxy⟩ := hx
  subst hxy
  exact h y hy

theorem blockSurface_braces (ind : String) (o : Options) (pieces : List String)
    (hiO : charCount '\x7b' ind = 0) (hiC : charCount '\x7d' ind = 0)
    (hp : ∀ x ∈ pieces, charCount '\x7d' x ≤ charCount '\x7b' x) :
    charCount '\x7d' (blockSurface ind o pieces) ≤ charCount '\x7b' (blockSurface ind o pieces) := by
  unfold blockSurface
  simp only [charCount_append, hiO, hiC, charCount_jsConcat]
  have hnl1 : charCount '\x7b' (if o.lineBreak = true then "\n" else "") = 0 :=
    charCount_ite (by decide) (by decide)
  have hnl2 : charCount '\x7d' (if o.lineBreak = true then "\n" else "") = 0 :=
    charCount_ite (by decide) (by decide)
  have hsum := sum_counts_le pieces hp
  have l1 : charCount '\x7b' "\x7b" = 1 := by decide
  have l2 : charCount '\x7d' "\x7b" = 0 := by decide
  have l3 : charCount '\x7b' "\x7d" = 0 := by decide
  have l4 : charCount '\x7d' "\x7d" = 1 := by decide
  omega

mutual

theorem printStmt_braces (s : Stmt) (o : Options) (src : String)
    (ht : Stmt.tokensBF s = true) (hs : braceFree src = true) :
    ∀ out, printStmt s o src = .ok out →
      charCount '\x7d' out ≤ charCount '\x7b' out := by
  cases s with
  | exprStmt e =>
    intro out h
    simp only [printStmt, exBind_eq_ok, Except.ok.injEq] at h
    obtain ⟨ind, hind, eOut, hE, rfl⟩ := h
    simp only [Stmt.tokensBF] at ht
    have hiO := indentation_opens o ind hind
    have hiC := indentation_closes o ind hind
    have he := printExpr_braces e o src ht hs eOut hE
    simp only [charCount_append]
    have s1 : charCount '\x7b' (if hasFlag o.commentPlacementFlag CommentPlacementFlags.After = true then ";" else "") = 0 :=
      charCount_ite (by decide) (by decide)
    have s2 : charCount '\x7d' (if hasFlag o.commentPlacementFlag CommentPlacementFlags.After = true then ";" else "") = 0 :=
      charCount_ite (by decide) (by decide)
    omega
  | varDecl kind ds =>
    intro out h
    simp only [printStmt, exBind_eq_ok, Except.ok.injEq] at h
    obtain ⟨ind, hind, parts, hP, rfl⟩ := h
    simp only [Stmt.tokensBF] at ht
    have hiO := indentation_opens o ind hind
    have hiC := indentation_closes o ind hind
    have hp := printDeclaratorList_braces ds o src ht hs parts hP
    simp only [charCount_append]
    rw [charCount_jsJoin '\x7d' ", " (by decide) parts,
      charCount_jsJoin '\x7b' ", " (by decide) parts]
    have hsum := sum_counts_le parts hp
    have k1 := braceFree_opens (varKindStr_braceFree kind)
    have k2 := braceFree_closes (varKindStr_braceFree kind)
    have s1 : charCount '\x7b' (if hasFlag o.commentPlacementFlag CommentPlacementFlags.After = true then ";" else "") = 0 :=
      charCount_ite (by decide) (by decide)
    have s2 : charCount '\x7d' (if hasFlag o.commentPlacementFlag CommentPlacementFlags.After = true then ";" else "") = 0 :=
      charCount_ite (by decide) (by decide)
    have w1 : charCount '\x7b' " " = 0 := by decide
    have w2 : charCount '\x7d' " " = 0 := by decide
    omega
  | ifStmt t c a =>
    intro out h
    cases a with
    | none =>
      simp only [printStmt, exBind_eq_ok, Except.ok.injEq, exPure_eq_ok] at h
      obtain ⟨ind, hind, tOut, hT, cOut, hC, a, rfl, rfl⟩ := h
      simp only [Stmt.tokensBF, Bool.and_eq_true] at ht
      have hiO := indentation_opens o ind hind
      have hiC := indentation_closes o ind hind
      have h1 := printExpr_braces t o src ht.1.1 hs tOut hT
      have h2 := printStmt_braces c o src ht.1.2 hs cOut hC
      simp only [charCount_append]
      have s1 : charCount '\x7b' (if hasFlag o.commentPlacementFlag CommentPlacementFlags.After = true then " " else "") = 0 :=
        charCount_ite (by decide) (by decide)
      have s2 : charCount '\x7d' (if hasFlag o.commentPlacementFlag CommentPlacementFlags.After = true then " " else "") = 0 :=
        charCount_ite (by decide) (by decide)
      have l1 : charCount '\x7b' "if (" = 0 := by decide
      have l2 : charCount '\x7d' "if (" = 0 := by decide
      have l3 : charCount '\x7b' ")" = 0 := by decide
      have l4 : charCount '\x7d' ")" = 0 := by decide
      have l5 : charCount '\x7b' "\n" = 0 := by decide
      have l6 : charCount '\x7d' "\n" = 0 := by decide
      have l7 : charCount '\x7b' "" = 0 := by decide
      have l8 : charCount '\x7d' "" = 0 := by decide
      omega
    | some s2 =>
      simp only [printStmt, exBind_eq_ok, Except.ok.injEq, exPure_eq_ok] at h
      obtain ⟨ind, hind, tOut, hT, cOut, hC, aOut, ⟨x, hX, rfl⟩, rfl⟩ := h
      simp only [Stmt.tokensBF, Bool.and_eq_true] at ht
      have hiO := indentation_opens o ind hind
      have hiC := indentation_closes o ind hind
      have h1 := printExpr_braces t o src ht.1.1 hs tOut hT
      have h2 := printStmt_braces c o src ht.1.2 hs cOut hC
      have h3 := printStmt_braces s2 o src ht.2 hs x hX
      simp only [charCount_append]
      have s1 : charCount '\x7b' (if hasFlag o.commentPlacementFlag CommentPlacementFlags.After = true then " " else "") = 0 :=
        charCount_ite (by decide) (by decide)
      have s2h : charCount '\x7d' (if hasFlag o.commentPlacementFlag CommentPlacementFlags.After = true then " " else "") = 0 :=
        charCount_ite (by decide) (by decide)
      have l1 : charCount '\x7b' "if (" = 0 := by decide
      have l2 : charCount '\x7d' "if (" = 0 := by decide
      have l3 : charCount '\x7b' ")" = 0 := by decide
      have l4 : charCount '\x7d' ")" = 0 := by decide
      have l5 : charCount '\x7b' "\n" = 0 := by decide
      have l6 : charCount '\x7d' "\n" = 0 := by decide
      have l9 : charCount '\x7b' " else " = 0 := by decide
      have l10 : charCount '\x7d' " else " = 0 := by decide
      omega
  | block body =>
    intro out h
    simp only [printStmt, exBind_eq_ok, Except.ok.injEq] at h
    obtain ⟨ind, hind, pieces, hP, rfl⟩ := h
    simp only [Stmt.tokensBF] at ht
    exact blockSurface_braces ind o pieces (indentation_opens o ind hind)
      (indentation_closes o ind hind) (printBodyItems_braces body o src ht hs pieces hP)
  | funcDecl id params body =>
    intro out h
    simp only [printStmt, exBind_eq_ok, Except.ok.injEq] at h
    obtain ⟨ind, hind, idOut, hId, ps, hPs, pieces, hP, rfl⟩ := h
    simp only [Stmt.tokensBF, Bool.and_eq_true] at ht
    have hiO := indentation_opens o ind hind
    have hiC := indentation_closes o ind hind
    have hid := printIdentifier_braces id o idOut hId ht.1.1
    have hps := exMapM_printIdentifier_braces params o ps hPs ht.1.2
    have hbs := blockSurface_braces ind o pieces hiO hiC
      (printBodyItems_braces body o src ht.2 hs pieces hP)
    simp only [charCount_append]
    rw [charCount_jsJoin '\x7d' ", " (by decide) ps,
      charCount_jsJoin '\x7b' ", " (by decide) ps]
    have z1 := sum_counts_zero '\x7b' ps (fun x hx => (hps x hx).1)
    have z2 := sum_counts_zero '\x7d' ps (fun x hx => (hps x hx).2)
    have s1 : charCount '\x7b' (if hasFlag o.commentPlacementFlag CommentPlacementFlags.After = true then " " else "") = 0 :=
      charCount_ite (by decide) (by decide)
    have s2 : charCount '\x7d' (if hasFlag o.commentPlacementFlag CommentPlacementFlags.After = true then " " else "") = 0 :=
      charCount_ite (by decide) (by decide)
    have l1 : charCount '\x7b' "function " = 0 := by decide
    have l2 : charCount '\x7d' "function " = 0 := by decide
    have l3 : charCount '\x7b' "(" = 0 := by decide
    have l4 : charCount '\x7d' "(" = 0 := by decide
    have l5 : charCount '\x7b' ")" = 0 := by decide
    have l6 : charCount '\x7d' ")" = 0 := by decide
    omega
  | classDecl id body =>
    intro out h
    simp only [printStmt, exBind_eq_ok, Except.ok.injEq] at h
    obtain ⟨ind, hind, idOut, hId, pieces, hP, rfl⟩ := h
    simp only [Stmt.tokensBF, Bool.and_eq_true] at ht
    have hiO := indentation_opens o ind hind
    have hiC := indentation_closes o ind hind
    have hid := printIdentifier_braces id o idOut hId ht.1
    have hp := printClassItems_braces body o src ht.2 hs pieces hP
    simp only [charCount_append]
    rw [charCount_jsJoin '\x7d' "\n" (by decide) pieces,
      charCount_jsJoin '\x7b' "\n" (by decide) pieces]
    have hsum := sum_counts_le pieces hp
    have l1 : charCount '\x7b' "class " = 0 := by decide
    have l2 : charCount '\x7d' "class " = 0 := by decide
    have l3 : charCount '\x7b' " \x7b" = 1 := by decide
    have l4 : charCount '\x7d' " \x7b" = 0 := by decide
    have l5 : charCount '\x7b' "\n" = 0 := by decide
    have l6 : charCount '\x7d' "\n" = 0 := by decide
    have l7 : charCount '\x7b' "\x7d" = 0 := by decide
    have l8 : charCount '\x7d' "\x7d" = 1 := by decide
    omega
  | ret a =>
    intro out h
    cases a with
    | none =>
      simp only [printStmt, exBind_eq_ok, Except.ok.injEq, exPure_eq_ok] at h
      obtain ⟨ind, hind, a, rfl, rfl⟩ := h
      have hiO := indentation_opens o ind hind
      have hiC := indentation_closes o ind hind
      simp only [charCount_append]
      have s1 : charCount '\x7b' (if hasFlag o.commentPlacementFlag CommentPlacementFlags.After = true then " " else "") = 0 :=
        charCount_ite (by decide) (by decide)
      have s2 : charCount '\x7d' (if hasFlag o.commentPlacementFlag CommentPlacementFlags.After = true then " " else "") = 0 :=
        charCount_ite (by decide) (by decide)
      have l1 : charCount '\x7b' "return" = 0 := by decide
      have l2 : charCount '\x7d' "return" = 0 := by decide
      have l3 : charCount '\x7b' ";" = 0 := by decide
      have l4 : charCount '\x7d' ";" = 0 := by decide
      have l5 : charCount '\x7b' "" = 0 := by decide
      have l6 : charCount '\x7d' "" = 0 := by decide
      omega
    | some e =>
      simp only [printStmt, exBind_eq_ok, Except.ok.injEq, exPure_eq_ok] at h
      obtain ⟨ind, hind, aOut, ⟨x, hX, rfl⟩, rfl⟩ := h
      simp only [Stmt.tokensBF] at ht
      have hiO := indentation_opens o ind hind
      have hiC := indentation_closes o ind hind
      have h1 := printExpr_braces e o src ht hs x hX
      simp only [charCount_append]
      have s1 : charCount '\x7b' (if hasFlag o.commentPlacementFlag CommentPlacementFlags.After = true then " " else "") = 0 :=
        charCount_ite (by decide) (by decide)
      have s2 : charCount '\x7d' (if hasFlag o.commentPlacementFlag CommentPlacementFlags.After = true then " " else "") = 0 :=
        charCount_ite (by decide) (by decide)
      have l1 : charCount '\x7b' "return" = 0 := by decide
      have l2 : charCount '\x7d' "return" = 0 := by decide
      have l3 : charCount '\x7b' ";" = 0 := by decide
      have l4 : charCount '\x7d' ";" = 0 := by decide
      have l5 : charCount '\x7b' " " = 0 := by decide
      have l6 : charCount '\x7d' " " = 0 := by decide
      omega

theorem printExpr_braces (e : Expr) (o : Options) (src : String)
    (ht : Expr.tokensBF e = true) (hs : braceFree src = true) :
    ∀ out, printExpr e o src = .ok out →
      charCount '\x7d' out ≤ charCount '\x7b' out := by
  cases e with
  | identifier name =>
    intro out h
    simp only [printExpr] at h
    simp only [Expr.tokensBF] at ht
    have := printIdentifier_braces name o out h ht
    omega
  | literal raw =>
    intro out h
    simp only [printExpr, printLiteral, exBind_eq_ok, Except.ok.injEq] at h
    obtain ⟨ind, hind, rfl⟩ := h
    simp only [Expr.tokensBF] at ht
    have hiO := indentation_opens o ind hind
    have hiC := indentation_closes o ind hind
    have r1 := braceFree_opens ht
    have r2 := braceFree_closes ht
    simp only [charCount_append]
    omega
  | binary op l r lbk =>
    intro out h
    simp only [printExpr, exBind_eq_ok, Except.ok.injEq] at h
    obtain ⟨ind, hind, lOut, hL, rOut, hR, rfl⟩ := h
    simp only [Expr.tokensBF, Bool.and_eq_true] at ht
    have h1 := printExpr_braces l o src ht.1.2 hs lOut hL
    have h2 := printExpr_braces r o src ht.2 hs rOut hR
    have o1 := braceFree_opens ht.1.1
    have o2 := braceFree_closes ht.1.1
    simp only [charCount_append]
    have s1 : charCount '\x7b' (if hasFlag o.commentPlacementFlag CommentPlacementFlags.After = true then " " else "") = 0 :=
      charCount_ite (by decide) (by decide)
    have s2 : charCount '\x7d' (if hasFlag o.commentPlacementFlag CommentPlacementFlags.After = true then " " else "") = 0 :=
      charCount_ite (by decide) (by decide)
    have n1 : charCount '\x7b' (if (lbk != 0) = true then
        (if hasFlag lbk LineBreakFlags.Before = true then "\n" else "") ++
          (if hasFlag lbk LineBreakFlags.After = true then "\n" else "")
       else "") = 0 := by
      split
      · rw [charCount_append]
        rw [charCount_ite (by decide) (by decide), charCount_ite (by decide) (by decide)]
      · decide
    have n2 : charCount '\x7d' (if (lbk != 0) = true then
        (if hasFlag lbk LineBreakFlags.Before = true then "\n" else "") ++
          (if hasFlag lbk LineBreakFlags.After = true then "\n" else "")
       else "") = 0 := by
      split
      · rw [charCount_append]
        rw [charCount_ite (by decide) (by decide), charCount_ite (by decide) (by decide)]
      · decide
    have w1 : charCount '\x7b' " " = 0 := by decide
    have w2 : charCount '\x7d' " " = 0 := by decide
    omega
  | unary op a =>
    intro out h
    simp only [printExpr, exBind_eq_ok, Except.ok.injEq] at h
    obtain ⟨ind, hind, aOut, hA, rfl⟩ := h
    simp only [Expr.tokensBF, Bool.and_eq_true] at ht
    have h1 := printExpr_braces a o src ht.2 hs aOut hA
    have o1 := braceFree_opens ht.1
    have o2 := braceFree_closes ht.1
    simp only [charCount_append]
    have s1 : charCount '\x7b' (if hasFlag o.commentPlacementFlag CommentPlacementFlags.After = true then " " else "") = 0 :=
      charCount_ite (by decide) (by decide)
    have s2 : charCount '\x7d' (if hasFlag o.commentPlacementFlag CommentPlacementFlags.After = true then " " else "") = 0 :=
      charCount_ite (by decide) (by decide)
    omega
  | call c args =>
    intro out h
    simp only [printExpr, exBind_eq_ok, Except.ok.injEq] at h
    obtain ⟨ind, hind, cOut, hC, argOuts, hA, rfl⟩ := h
    simp only [Expr.tokensBF, Bool.and_eq_true] at ht
    have h1 := printExpr_braces c o src ht.1 hs cOut hC
    have hp := printExprList_braces args o src ht.2 hs argOuts hA
    simp only [charCount_append]
    rw [charCount_jsJoin '\x7d' ", " (by decide) argOuts,
      charCount_jsJoin '\x7b' ", " (by decide) argOuts]
    have hsum := sum_counts_le argOuts hp
    have s1 : charCount '\x7b' (if hasFlag o.commentPlacementFlag CommentPlacementFlags.After = true then " " else "") = 0 :=
      charCount_ite (by decide) (by decide)
    have s2 : charCount '\x7d' (if hasFlag o.commentPlacementFlag CommentPlacementFlags.After = true then " " else "") = 0 :=
      charCount_ite (by decide) (by decide)
    have l3 : charCount '\x7b' "(" = 0 := by decide
    have l4 : charCount '\x7d' "(" = 0 := by decide
    have l5 : charCount '\x7b' ")" = 0 := by decide
    have l6 : charCount '\x7d' ")" = 0 := by decide
    omega
  | member ob prop comp =>
    intro out h
    simp only [printExpr, exBind_eq_ok, Except.ok.injEq] at h
    obtain ⟨ind, hind, oOut, hO, pOut, hP, rfl⟩ := h
    simp only [Expr.tokensBF, Bool.and_eq_true] at ht
    have h1 := printExpr_braces ob o src ht.1 hs oOut hO
    have h2 := printIdentifier_braces prop o pOut hP ht.2
    simp only [charCount_append]
    have s1 : charCount '\x7b' (if hasFlag o.commentPlacementFlag CommentPlacementFlags.After = true then " " else "") = 0 :=
      charCount_ite (by decide) (by decide)
    have s2 : charCount '\x7d' (if hasFlag o.commentPlacementFlag CommentPlacementFlags.After = true then " " else "") = 0 :=
      charCount_ite (by decide) (by decide)
    have b1 : charCount '\x7b' (if comp = true then "[" else ".") = 0 :=
      charCount_ite (by decide) (by decide)
    have b2 : charCount '\x7d' (if comp = true then "[" else ".") = 0 :=
      charCount_ite (by decide) (by decide)
    have b3 : charCount '\x7b' (if comp = true then "]" else "") = 0 :=
      charCount_ite (by decide) (by decide)
    have b4 : charCount '\x7d' (if comp = true then "]" else "") = 0 :=
      charCount_ite (by decide) (by decide)
    omega
  | arrayE els =>
    intro out h
    simp only [printExpr, exBind_eq_ok, Except.ok.injEq] at h
    obtain ⟨ind, hind, outs, hOuts, rfl⟩ := h
    simp only [Expr.tokensBF] at ht
    have hp := printArrayElements_braces els o src ht hs outs hOuts
    simp only [charCount_append]
    rw [charCount_jsJoin '\x7d' ", " (by decide) outs,
      charCount_jsJoin '\x7b' ", " (by decide) outs]
    have hsum := sum_counts_le outs hp
    have l1 : charCount '\x7b' "[" = 0 := by decide
    have l2 : charCount '\x7d' "[" = 0 := by decide
    have l3 : charCount '\x7b' "]" = 0 := by decide
    have l4 : charCount '\x7d' "]" = 0 := by decide
    omega
  | objectE props =>
    intro out h
    simp only [printExpr, exBind_eq_ok, Except.ok.injEq] at h
    obtain ⟨ind, hind, outs, hOuts, rfl⟩ := h
    simp only [Expr.tokensBF] at ht
    have hp := printPropertyList_braces props o src ht hs outs hOuts
    simp only [charCount_append]
    rw [charCount_jsJoin '\x7d' ", " (by decide) outs,
      charCount_jsJoin '\x7b' ", " (by decide) outs]
    have hsum := sum_counts_le outs hp
    have l1 : charCount '\x7b' "\x7b" = 1 := by decide
    have l2 : charCount '\x7d' "\x7b" = 0 := by decide
    omega
  | arrow params b =>
    intro out h
    cases b with
    | expr e2 =>
      simp only [printExpr, exBind_eq_ok, Except.ok.injEq] at h
      obtain ⟨ind, hind, ps, hPs, bOut, hB, rfl⟩ := h
      simp only [Expr.tokensBF, ArrowBody.tokensBF, Bool.and_eq_true] at ht
      have hiO := indentation_opens o ind hind
      have hiC := indentation_closes o ind hind
      have hps := exMapM_printIdentifier_braces params o ps hPs ht.1
      have h1 := printExpr_braces e2 o src ht.2 hs bOut hB
      simp only [charCount_append]
      rw [charCount_jsJoin '\x7d' ", " (by decide) ps,
        charCount_jsJoin '\x7b' ", " (by decide) ps]
      have z1 := sum_counts_zero '\x7b' ps (fun x hx => (hps x hx).1)
      have z2 := sum_counts_zero '\x7d' ps (fun x hx => (hps x hx).2)
      have s1 : charCount '\x7b' (if hasFlag o.commentPlacementFlag CommentPlacementFlags.After = true then " " else "") = 0 :=
        charCount_ite (by decide) (by decide)
      have s2 : charCount '\x7d' (if hasFlag o.commentPlacementFlag CommentPlacementFlags.After = true then " " else "") = 0 :=
        charCount_ite (by decide) (by decide)
      have l1 : charCount '\x7b' "(" = 0 := by decide
      have l2 : charCount '\x7d' "(" = 0 := by decide
      have l3 : charCount '\x7b' ") => " = 0 := by decide
      have l4 : charCount '\x7d' ") => " = 0 := by decide
      omega
    | block bs =>
      simp only [printExpr, exBind_eq_ok, Except.ok.injEq, exPure_eq_ok] at h
      obtain ⟨ind, hind, ps, hPs, bOut, ⟨pieces, hP, rfl⟩, rfl⟩ := h
      simp only [Expr.tokensBF, ArrowBody.tokensBF, Bool.and_eq_true] at ht
      have hiO := indentation_opens o ind hind
      have hiC := indentation_closes o ind hind
      have hps := exMapM_printIdentifier_braces params o ps hPs ht.1
      have hbs := blockSurface_braces ind o pieces hiO hiC
        (printBodyItems_braces bs o src ht.2 hs pieces hP)
      simp only [charCount_append]
      rw [charCount_jsJoin '\x7d' ", " (by decide) ps,
        charCount_jsJoin '\x7b' ", " (by decide) ps]
      have z1 := sum_counts_zero '\x7b' ps (fun x hx => (hps x hx).1)
      have z2 := sum_counts_zero '\x7d' ps (fun x hx => (hps x hx).2)
      have s1 : charCount '\x7b' (if hasFlag o.commentPlacementFlag CommentPlacementFlags.After = true then " " else "") = 0 :=
        charCount_ite (by decide) (by decide)
      have s2 : charCount '\x7d' (if hasFlag o.commentPlacementFlag CommentPlacementFlags.After = true then " " else "") = 0 :=
        charCount_ite (by decide) (by decide)
      have l1 : charCount '\x7b' "(" = 0 := by decide
      have l2 : charCount '\x7d' "(" = 0 := by decide
      have l3 : charCount '\x7b' ") => " = 0 := by decide
      have l4 : charCount '\x7d' ") => " = 0 := by decide
      omega
  | thisE =>
    intro out h
    simp only [printExpr, printThisExpression, exBind_eq_ok, Except.ok.injEq] at h
    obtain ⟨ind, hind, rfl⟩ := h
    have hiO := indentation_opens o ind hind
    have hiC := indentation_closes o ind hind
    simp only [charCount_append]
    have l1 : charCount '\x7b' "this" = 0 := by decide
    have l2 : charCount '\x7d' "this" = 0 := by decide
    omega
  | spread a =>
    intro out h
    simp only [printExpr, exBind_eq_ok, Except.ok.injEq] at h
    obtain ⟨ind, hind, aOut, hA, rfl⟩ := h
    simp only [Expr.tokensBF] at ht
    have hiO := indentation_opens o ind hind
    have hiC := indentation_closes o ind hind
    have h1 := printExpr_braces a o src ht hs aOut hA
    simp only [charCount_append]
    have l1 : charCount '\x7b' "..." = 0 := by decide
    have l2 : charCount '\x7d' "..." = 0 := by decide
    omega
  | conditional t c a lbk =>
    intro out h
    simp only [printExpr, exBind_eq_ok, Except.ok.injEq] at h
    obtain ⟨ind, hind, tOut, hT, cOut, hC, aOut, hA, rfl⟩ := h
    simp only [Expr.tokensBF, Bool.and_eq_true] at ht
    have h1 := printExpr_braces t o src ht.1.1 hs tOut hT
    have h2 := printExpr_braces c o src ht.1.2 hs cOut hC
    have h3 := printExpr_braces a o src ht.2 hs aOut hA
    simp only [charCount_append]
    have n1 : charCount '\x7b' (if (lbk != 0) = true then
        (if hasFlag lbk LineBreakFlags.Before = true then "\n" else "") ++
          (if hasFlag lbk LineBreakFlags.After = true then "\n" else "")
       else "") = 0 := by
      split
      · rw [charCount_append]
        rw [charCount_ite (by decide) (by decide), charCount_ite (by decide) (by decide)]
      · decide
    have n2 : charCount '\x7d' (if (lbk != 0) = true then
        (if hasFlag lbk LineBreakFlags.Before = true then "\n" else "") ++
          (if hasFlag lbk LineBreakFlags.After = true then "\n" else "")
       else "") = 0 := by
      split
      · rw [charCount_append]
        rw [charCount_ite (by decide) (by decide), charCount_ite (by decide) (by decide)]
      · decide
    have l1 : charCount '\x7b' " ? " = 0 := by decide
    have l2 : charCount '\x7d' " ? " = 0 := by decide
    have l3 : charCount '\x7b' " : " = 0 := by decide
    have l4 : charCount '\x7d' " : " = 0 := by decide
    omega

theorem printDeclarator_braces (d : Declarator) (o : Options) (src : String)
    (ht : Declarator.tokensBF d = true) (hs : braceFree src = true) :
    ∀ out, printDeclarator d o src = .ok out →
      charCount '\x7d' out ≤ charCount '\x7b' out := by
  cases d with
  | mk id init =>
    intro out h
    cases init with
    | none =>
      simp only [printDeclarator, exBind_eq_ok, Except.ok.injEq, exPure_eq_ok] at h
      obtain ⟨ind, hind, idOut, hId, a, rfl, rfl⟩ := h
      simp only [Declarator.tokensBF, Bool.and_eq_true] at ht
      have hid := printIdentifier_braces id o idOut hId ht.1
      simp only [charCount_append]
      have s1 : charCount '\x7b' (if hasFlag o.commentPlacementFlag CommentPlacementFlags.After = true then ";" else "") = 0 :=
        charCount_ite (by decide) (by decide)
      have s2 : charCount '\x7d' (if hasFlag o.commentPlacementFlag CommentPlacementFlags.After = true then ";" else "") = 0 :=
        charCount_ite (by decide) (by decide)
      have l1 : charCount '\x7b' "" = 0 := by decide
      have l2 : charCount '\x7d' "" = 0 := by decide
      omega
    | some e =>
      simp only [printDeclarator, exBind_eq_ok, Except.ok.injEq, exPure_eq_ok] at h
      obtain ⟨ind, hind, idOut, hId, initOut, ⟨x, hX, rfl⟩, rfl⟩ := h
      simp only [Declarator.tokensBF, Bool.and_eq_true] at ht
      have hid := printIdentifier_braces id o idOut hId ht.1
      have h1 := printExpr_braces e o src ht.2 hs x hX
      simp only [charCount_append]
      have s1 : charCount '\x7b' (if hasFlag o.commentPlacementFlag CommentPlacementFlags.After = true then ";" else "") = 0 :=
        charCount_ite (by decide) (by decide)
      have s2 : charCount '\x7d' (if hasFlag o.commentPlacementFlag CommentPlacementFlags.After = true then ";" else "") = 0 :=
        charCount_ite (by decide) (by decide)
      have l1 : charCount '\x7b' " = " = 0 := by decide
      have l2 : charCount '\x7d' " = " = 0 := by decide
      omega

theorem printProperty_braces (p : ObjProperty) (o : Options) (src : String)
    (ht : ObjProperty.tokensBF p = true) (hs : braceFree src = true) :
    ∀ out, printProperty p o src = .ok out →
      charCount '\x7d' out ≤ charCount '\x7b' out := by
  cases p with
  | mk k v =>
    intro out h
    simp only [printProperty, exBind_eq_ok, Except.ok.injEq] at h
    obtain ⟨ind, hind, kOut, hK, vOut, hV, rfl⟩ := h
    simp only [ObjProperty.tokensBF, Bool.and_eq_true] at ht
    have h1 := printExpr_braces k o src ht.1 hs kOut hK
    have h2 := printExpr_braces v o src ht.2 hs vOut hV
    simp only [charCount_append]
    have s1 : charCount '\x7b' (if hasFlag o.commentPlacementFlag CommentPlacementFlags.After = true then " " else "") = 0 :=
      charCount_ite (by decide) (by decide)
    have s2 : charCount '\x7d' (if hasFlag o.commentPlacementFlag CommentPlacementFlags.After = true then " " else "") = 0 :=
      charCount_ite (by decide) (by decide)
    have l1 : charCount '\x7b' ": " = 0 := by decide
    have l2 : charCount '\x7d' ": " = 0 := by decide
    omega

theorem printBodyItems_braces (l : List BodyItem) (o : Options) (src : String)
    (ht : BodyItem.listTokensBF l = true) (hs : braceFree src = true) :
    ∀ outs, printBodyItems l o src = .ok outs →
      ∀ x ∈ outs, charCount '\x7d' x ≤ charCount '\x7b' x := by
  cases l with
  | nil =>
    intro outs h
    simp only [printBodyItems, Except.ok.injEq] at h
    subst h
    intro x hx
    cases hx
  | cons item rest =>
    intro outs h
    cases item with
    | comment c =>
      simp only [printBodyItems, exBind_eq_ok, Except.ok.injEq] at h
      obtain ⟨piece, hPc, pieces, hP, rfl⟩ := h
      simp only [BodyItem.listTokensBF] at ht
      intro x hx
      cases hx with
      | head =>
        have := printComment_braces c o src piece hPc hs
        omega
      | tail _ hx2 =>
        exact printBodyItems_braces rest o src ht hs pieces hP x hx2
    | stmt s =>
      simp only [printBodyItems, exBind_eq_ok, Except.ok.injEq, exPure_eq_ok] at h
      obtain ⟨piece, ⟨sOut, hS, rfl⟩, pieces, hP, rfl⟩ := h
      simp only [BodyItem.listTokensBF, Bool.and_eq_true] at ht
      intro x hx
      cases hx with
      | head =>
        have h1 := printStmt_braces s o src ht.1 hs sOut hS
        have n1 : charCount '\x7b' (if rest.isEmpty = true then "" else "\n") = 0 :=
          charCount_ite (by decide) (by decide)
        have n2 : charCount '\x7d' (if rest.isEmpty = true then "" else "\n") = 0 :=
          charCount_ite (by decide) (by decide)
        rw [charCount_append, charCount_append, n1, n2]
        omega
      | tail _ hx2 =>
        exact printBodyItems_braces rest o src ht.2 hs pieces hP x hx2

theorem printClassItems_braces (l : List ClassItem) (o : Options) (src : String)
    (ht : ClassItem.listTokensBF l = true) (hs : braceFree src = true) :
    ∀ outs, printClassItems l o src = .ok outs →
      ∀ x ∈ outs, charCount '\x7d' x ≤ charCount '\x7b' x := by
  cases l with
  | nil =>
    intro outs h
    simp only [printClassItems, Except.ok.injEq] at h
    subst h
    intro x hx
    cases hx
  | cons item rest =>
    intro outs h
    cases item with
    | comment c =>
      simp only [printClassItems, exBind_eq_ok, Except.ok.injEq] at h
      obtain ⟨piece, hPc, pieces, hP, rfl⟩ := h
      simp only [ClassItem.listTokensBF] at ht
      intro x hx
      cases hx with
      | head =>
        have := printComment_braces c o src piece hPc hs
        omega
      | tail _ hx2 =>
        exact printClassItems_braces rest o src ht hs pieces hP x hx2
    | element key isStatic params fbody cstart cstop =>
      simp only [printClassItems, exBind_eq_ok, Except.ok.injEq, exPure_eq_ok] at h
      simp only [ClassItem.listTokensBF, Bool.and_eq_true] at ht
      obtain ⟨piece, hPiece, pieces, hP, rfl⟩ := h
      intro x hx
      cases hx with
      | tail _ hx2 =>
        exact printClassItems_braces rest o src ht.2 hs pieces hP x hx2
      | head =>
        obtain ⟨ind, hind, ps, hPs, pieces2, hP2, hPc⟩ := hPiece
        have hiO := indentation_opens o ind hind
        have hiC := indentation_closes o ind hind
        have hps := exMapM_printIdentifier_braces params o ps hPs ht.1.1.2
        have hbs := blockSurface_braces ind o pieces2 hiO hiC
          (printBodyItems_braces fbody o src ht.1.2 hs pieces2 hP2)
        have hcm := classElementComments_braces o src cstart cstop hs
        have hkey1 := braceFree_opens ht.1.1.1
        have hkey2 := braceFree_closes ht.1.1.1
        have z1 := sum_counts_zero '\x7b' ps (fun y hy => (hps y hy).1)
        have z2 := sum_counts_zero '\x7d' ps (fun y hy => (hps y hy).2)
        have l1 : charCount '\x7b' "constructor(" = 0 := by decide
        have l2 : charCount '\x7d' "constructor(" = 0 := by decide
        have l3 : charCount '\x7b' ") " = 0 := by decide
        have l4 : charCount '\x7d' ") " = 0 := by decide
        have l5 : charCount '\x7b' "static " = 0 := by decide
        have l6 : charCount '\x7d' "static " = 0 := by decide
        have l7 : charCount '\x7b' "(" = 0 := by decide
        have l8 : charCount '\x7d' "(" = 0 := by decide
        have l9 : charCount '\x7b' "\n" = 0 := by decide
        have l10 : charCount '\x7d' "\n" = 0 := by decide
        have hst1 : charCount '\x7b' (if isStatic = true then "static " else "") = 0 :=
          charCount_ite (by decide) (by decide)
        have hst2 : charCount '\x7d' (if isStatic = true then "static " else "") = 0 :=
          charCount_ite (by decide) (by decide)
        split at hPc
        · obtain ⟨y, rfl, rfl⟩ := hPc
          simp only [charCount_append]
          rw [charCount_jsJoin '\x7d' ", " (by decide) ps,
            charCount_jsJoin '\x7b' ", " (by decide) ps]
          omega
        · split at hPc
          · cases hKey : printIdentifier key o with
            | error err =>
              rw [hKey] at hPc
              cases hPc
            | ok keyOut =>
              rw [hKey] at hPc
              simp only [exOk_bind, exPure_eq_ok, exBind_eq_ok, Except.ok.injEq] at hPc
              obtain ⟨y, rfl, rfl⟩ := hPc
              have hk := printIdentifier_braces key o keyOut hKey ht.1.1.1
              simp only [charCount_append]
              rw [charCount_jsJoin '\x7d' ", " (by decide) ps,
                charCount_jsJoin '\x7b' ", " (by decide) ps]
              omega
          · cases hKey : printIdentifier key o with
            | error err =>
              rw [hKey] at hPc
              cases hPc
            | ok keyOut =>
              rw [hKey] at hPc
              simp only [exOk_bind, exPure_eq_ok, exBind_eq_ok, Except.ok.injEq] at hPc
              obtain ⟨y, rfl, rfl⟩ := hPc
              have hk := printIdentifier_braces key o keyOut hKey ht.1.1.1
              simp only [charCount_append]
              rw [charCount_jsJoin '\x7d' ", " (by decide) ps,
                charCount_jsJoin '\x7b' ", " (by decide) ps]
              omega

theorem printExprList_braces (l : List Expr) (o : Options) (src : String)
    (ht : Expr.listTokensBF l = true) (hs : braceFree src = true) :
    ∀ outs, printExprList l o src = .ok outs →
      ∀ x ∈ outs, charCount '\x7d' x ≤ charCount '\x7b' x := by
  cases l with
  | nil =>
    intro outs h
    simp only [printExprList, Except.ok.injEq] at h
    subst h
    intro x hx
    cases hx
  | cons e es =>
    intro outs h
    simp only [printExprList, exBind_eq_ok, Except.ok.injEq] at h
    obtain ⟨y, hy, ys, hys, rfl⟩ := h
    simp only [Expr.listTokensBF, Bool.and_eq_true] at ht
    intro x hx
    cases hx with
    | head => exact printExpr_braces e o src ht.1 hs y hy
    | tail _ hx2 => exact printExprList_braces es o src ht.2 hs ys hys x hx2

theorem printArrayElements_braces (l : List (Option Expr)) (o : Options) (src : String)
    (ht : Expr.elementsTokensBF l = true) (hs : braceFree src = true) :
    ∀ outs, printArrayElements l o src = .ok outs →
      ∀ x ∈ outs, charCount '\x7d' x ≤ charCount '\x7b' x := by
  cases l with
  | nil =>
    intro outs h
    simp only [printArrayElements, Except.ok.injEq] at h
    subst h
    intro x hx
    cases hx
  | cons oe es =>
    intro outs h
    cases oe with
    | none =>
      simp only [printArrayElements] at h
      simp only [Expr.elementsTokensBF] at ht
      exact printArrayElements_braces es o src ht hs outs h
    | some e =>
      simp only [printArrayElements, exBind_eq_ok, Except.ok.injEq] at h
      obtain ⟨y, hy, ys, hys, rfl⟩ := h
      simp only [Expr.elementsTokensBF, Bool.and_eq_true] at ht
      intro x hx
      cases hx with
      | head => exact printExpr_braces e o src ht.1 hs y hy
      | tail _ hx2 => exact printArrayElements_braces es o src ht.2 hs ys hys x hx2

theorem printPropertyList_braces (l : List ObjProperty) (o : Options) (src : String)
    (ht : ObjProperty.listTokensBF l = true) (hs : braceFree src = true) :
    ∀ outs, printPropertyList l o src = .ok outs →
      ∀ x ∈ outs, charCount '\x7d' x ≤ charCount '\x7b' x := by
  cases l with
  | nil =>
    intro outs h
    simp only [printPropertyList, Except.ok.injEq] at h
    subst h
    intro x hx
    cases hx
  | cons p ps =>
    intro outs h
    simp only [printPropertyList, exBind_eq_ok, Except.ok.injEq] at h
    obtain ⟨y, hy, ys, hys, rfl⟩ := h
    simp only [ObjProperty.listTokensBF, Bool.and_eq_true] at ht
    intro x hx
    cases hx with
    | head => exact printProperty_braces p o src ht.1 hs y hy
    | tail _ hx2 => exact printPropertyList_braces ps o src ht.2 hs ys hys x hx2

theorem printDeclaratorList_braces (l : List Declarator) (o : Options) (src : String)
    (ht : Declarator.listTokensBF l = true) (hs : braceFree src = true) :
    ∀ outs, printDeclaratorList l o src = .ok outs →
      ∀ x ∈ outs, charCount '\x7d' x ≤ charCount '\x7b' x := by
  cases l with
  | nil =>
    intro outs h
    simp only [printDeclaratorList, Except.ok.injEq] at h
    subst h
    intro x hx
    cases hx
  | cons d ds =>
    intro outs h
    simp only [printDeclaratorList, exBind_eq_ok, Except.ok.injEq] at h
    obtain ⟨y, hy, ys, hys, rfl⟩ := h
    simp only [Declarator.listTokensBF, Bool.and_eq_true] at ht
    intro x hx
    cases hx with
    | head => exact printDeclarator_braces d o src ht.1 hs y hy
    | tail _ hx2 => exact printDeclaratorList_braces ds o src ht.2 hs ys hys x hx2

end

/-! ### Remaining helpers for the claim theorems -/

theorem strAppend_assoc (a b c : String) : (a ++ b) ++ c = a ++ (b ++ c) := by
  cases a with
  | mk da =>
    cases b with
    | mk db =>
      cases c with
      | mk dc =>
        show String.mk ((da ++ db) ++ dc) = String.mk (da ++ (db ++ dc))
        rw [List.append_assoc]

theorem foldl_endsWith (sep suffix : String) :
    ∀ (as : List String) (init : String),
      (∀ x ∈ as, ∃ q, x = q ++ suffix) →
      (as = [] → ∃ q, init = q ++ suffix) →
      ∃ t, as.foldl (fun acc s => acc ++ sep ++ s) init = t ++ suffix := by
  intro as
  induction as with
  | nil =>
    intro init _ hinit
    simpa using hinit rfl
  | cons b bs ih =>
    intro init hmem _
    refine ih (init ++ sep ++ b) (fun x hx => hmem x (by simp [hx])) ?_
    intro _
    obtain ⟨qb, hqb⟩ := hmem b (by simp)
    exact ⟨init ++ sep ++ qb, by simp [hqb, strAppend_assoc]⟩

theorem jsJoin_endsWith (sep suffix : String) (l : List String) (hne : l ≠ [])
    (h : ∀ x ∈ l, ∃ q, x = q ++ suffix) : ∃ t, jsJoin sep l = t ++ suffix := by
  cases l with
  | nil => exact absurd rfl hne
  | cons a as =>
    unfold jsJoin
    refine foldl_endsWith sep suffix as a ?_ ?_
    · intro x hx; exact h x (by simp [hx])
    · intro _; exact h a (by simp)

theorem printDeclaratorList_mem (ds : List Declarator) (o : Options) (src : String)
    (outs : List String) (h : printDeclaratorList ds o src = .ok outs) :
    ∀ x ∈ outs, ∃ d ∈ ds, printDeclarator d o src = .ok x := by
  induction ds generalizing outs with
  | nil =>
    simp only [printDeclaratorList, Except.ok.injEq] at h
    subst h
    intro x hx
    cases hx
  | cons d rest ih =>
    simp only [printDeclaratorList, exBind_eq_ok, Except.ok.injEq] at h
    obtain ⟨y, hy, ys, hys, rfl⟩ := h
    intro x hx
    cases hx with
    | head => exact ⟨d, by simp, hy⟩
    | tail _ hx2 =>
      obtain ⟨d2, hd2, hpd⟩ := ih ys hys x hx2
      exact ⟨d2, by simp [hd2], hpd⟩

theorem printDeclaratorList_ne_nil (ds : List Declarator) (o : Options) (src : String)
    (outs : List String) (h : printDeclaratorList ds o src = .ok outs) (hne : ds ≠ []) :
    outs ≠ [] := by
  cases ds with
  | nil => exact absurd rfl hne
  | cons d rest =>
    simp only [printDeclaratorList, exBind_eq_ok, Except.ok.injEq] at h
    obtain ⟨y, hy, ys, hys, rfl⟩ := h
    simp

theorem printDeclarator_endsSemi (d : Declarator) (o : Options) (src : String)
    (dout : String) (hAfter : hasFlag o.commentPlacementFlag CommentPlacementFlags.After = true)
    (h : printDeclarator d o src = .ok dout) : ∃ q, dout = q ++ ";" := by
  cases d with
  | mk id init =>
    cases init with
    | none =>
      simp only [printDeclarator, exBind_eq_ok, Except.ok.injEq, exPure_eq_ok] at h
      obtain ⟨ind, hind, idOut, hId, a, rfl, rfl⟩ := h
      rw [if_pos hAfter]
      exact ⟨idOut ++ "", rfl⟩
    | some e =>
      simp only [printDeclarator, exBind_eq_ok, Except.ok.injEq, exPure_eq_ok] at h
      obtain ⟨ind, hind, idOut, hId, initOut, ⟨x, hX, rfl⟩, rfl⟩ := h
      rw [if_pos hAfter]
      exact ⟨idOut ++ (" = " ++ x), rfl⟩

theorem printArrayElements_eq_filterMap (l : List (Option Expr)) (o : Options)
    (src : String) : printArrayElements l o src = printExprList (l.filterMap id) o src := by
  induction l with
  | nil => rfl
  | cons oe es ih =>
    cases oe with
    | none => simp only [printArrayElements, List.filterMap_cons_none, ih]; rfl
    | some e =>
      simp only [printArrayElements, List.filterMap_cons_some, printExprList, ih]

/-! ### Claim C1 — width respect -/

/-- C1, counterexample.  The claim states that every rendered line fits in
`printWidth` unless it is one oversized atomic token.  With
`printWidth = 3`, the program `a + b` renders as the single line
`a +   b;` of length 8, which is none of the atomic tokens (`a`, `b`,
`+`) of the tree: the printer enforces no width limit at all. -/
theorem C1_counterexample :
    prettyPrint cexWidth { defaultOptions with printWidth := 3 } "var a, b;"
        = .ok "a +   b;" ∧
      linesOf "a +   b;" = ["a +   b;"] ∧
      3 < ("a +   b;").length ∧
      "a +   b;" ∉ (["a", "b", "+"] : List String) := by
  refine ⟨rfl, by decide, by decide, by decide⟩

/-- C1, amended.  `prettyPrint` never consults `printWidth`: the rendered
output is identical for every value of the option, so no line-width bound
holds (a line may exceed the width while containing several tokens). -/
theorem C1_amended (n : Node) (o : Options) (src : String) (w₁ w₂ : Int) :
    prettyPrint n { o with printWidth := w₁ } src
      = prettyPrint n { o with printWidth := w₂ } src :=
  prettyPrint_unusedFields w₁ w₂ o.commentPlacement o.commentPlacement
    o.commentTypes o.commentTypes o.tabWidth o.useTabs o.lineBreak
    o.commentFormat o.commentPlacementFlag n src

/-! ### Claim C2 — comment filtering -/

/-- C2, counterexample.  The claim states that a restrictive
`commentTypes` filter drops the filtered-out comments entirely.  With the
filter that retains no kind at all, the comment of the program still
appears verbatim in the output. -/
theorem C2_counterexample :
    prettyPrint cexCmt { defaultOptions with commentTypes := CommentTypeFlags.NoneK }
      "const x = 10; // keep" = .ok ("/* " ++ "// keep" ++ " */") := rfl

/-- C2, amended.  The `commentTypes` bitmask is destructured but never
consulted: rendering is identical for every filter value, so no comment is
ever dropped by the filter. -/
theorem C2_amended (n : Node) (o : Options) (src : String) (ct₁ ct₂ : Nat) :
    prettyPrint n { o with commentTypes := ct₁ } src
      = prettyPrint n { o with commentTypes := ct₂ } src :=
  prettyPrint_unusedFields o.printWidth o.printWidth o.commentPlacement
    o.commentPlacement ct₁ ct₂ o.tabWidth o.useTabs o.lineBreak
    o.commentFormat o.commentPlacementFlag n src

/-! ### Claim C3 — purity over explicit inputs -/

/-- C3, counterexample.  The claim states that no ambient current-source
variable influences the result of two invocations with identical node and
options.  The comment printer reads the ambient source buffer
(`sourceCode.substring`), so the same node and options produce different
strings under two different buffers. -/
theorem C3_counterexample :
    prettyPrint cexSrc defaultOptions "AAAA" ≠ prettyPrint cexSrc defaultOptions "BBBB" := by
  decide

/-- C3, amended.  Rendering is a pure function of the node, the options
and the ambient source buffer; the buffer influences the result only
through comment rendering and class-element comment collection — for a
tree containing neither comments nor class members the output is
independent of the buffer. -/
theorem C3_amended (n : Node) (o : Options) (sa sb : String)
    (h : Node.srcFree n = true) : prettyPrint n o sa = prettyPrint n o sb :=
  prettyPrint_srcFree n o sa sb h

/-- C3, witness. -/
theorem C3_witness :
    Node.srcFree cexWidth = true ∧
      prettyPrint cexWidth defaultOptions "AAAA" = prettyPrint cexWidth defaultOptions "BBBB" :=
  ⟨by decide, C3_amended cexWidth defaultOptions "AAAA" "BBBB" (by decide)⟩

/-! ### Claim C4 — unsupported-node error -/

/-- C4.  A node whose type tag has no mapping makes `prettyPrint` throw
the unsupported-node error; conversely, a node built only from the
supported variants never produces that error — it either succeeds (always,
when the indentation computation is well defined) or fails with the
`repeat` range error. -/
theorem C4_theorem :
    (∀ (tag : String) (o : Options) (src : String),
      prettyPrint (.unknown tag) o src = .error (.unsupported tag)) ∧
    (∀ (n : Node) (o : Options) (src : String), Node.supported n = true →
      (∀ t, prettyPrint n o src ≠ .error (.unsupported t)) ∧
      (indentOk o = true → ∃ out, prettyPrint n o src = .ok out)) := by
  constructor
  · intro tag o src
    rfl
  · intro n o src hn
    have hg := prettyPrint_good n o src hn
    constructor
    · intro t hcontra
      have := hg.2 _ hcontra
      cases this
    · exact hg.1

/-- C4, witness. -/
theorem C4_witness :
    prettyPrint (.unknown "WithStatement") defaultOptions "" =
        .error (.unsupported "WithStatement") ∧
      (∀ t, prettyPrint cexWidth defaultOptions "" ≠ .error (.unsupported t)) ∧
      ∃ out, prettyPrint cexWidth defaultOptions "" = .ok out :=
  ⟨C4_theorem.1 "WithStatement" defaultOptions "",
    (C4_theorem.2 cexWidth defaultOptions "" (by decide)).1,
    (C4_theorem.2 cexWidth defaultOptions "" (by decide)).2 (by decide)⟩

/-! ### Claim C5 — configuration validation -/

/-- C5, counterexample.  The claim states that a configuration with
`printWidth ≤ 0` is rejected with a configuration error before
translation and no output is produced.  With `printWidth = 0` the render
call succeeds and produces output. -/
theorem C5_counterexample :
    prettyPrint cexWidth { defaultOptions with printWidth := 0 } "" = .ok "a +   b;" := rfl

/-- C5, amended.  No configuration validation exists: a `printWidth ≤ 0`
is accepted and renders exactly as any other width.  A negative
`tabWidth` (with spaces selected) does fail — but during printing, with
the `repeat` range error, not with an up-front configuration error. -/
theorem C5_amended :
    (∀ (n : Node) (o : Options) (src : String) (w : Int), w ≤ 0 →
      prettyPrint n { o with printWidth := w } src = prettyPrint n o src) ∧
    (∀ (body : List BodyItem) (o : Options) (src : String),
      o.useTabs = false → o.tabWidth < 0 →
      prettyPrint (.program body) o src = .error .range) := by
  constructor
  · intro n o src w _
    exact prettyPrint_unusedFields w o.printWidth o.commentPlacement o.commentPlacement
      o.commentTypes o.commentTypes o.tabWidth o.useTabs o.lineBreak
      o.commentFormat o.commentPlacementFlag n src
  · intro body o src hut htw
    have hi : indentationOf o = .error .range := by simp [indentationOf, hut, htw]
    show (do
      let indentation ← indentationOf o
      let pieces ← printBodyItems body o src
      Except.ok (jsTrim (jsConcat pieces))) = Except.error PPErr.range
    rw [hi, exError_bind]

/-- C5, witness. -/
theorem C5_witness :
    prettyPrint cexWidth { defaultOptions with printWidth := 0 } "" =
        prettyPrint cexWidth defaultOptions "" ∧
      prettyPrint (.program []) { defaultOptions with tabWidth := -1 } "" =
        .error .range :=
  ⟨C5_amended.1 cexWidth defaultOptions "" 0 (by decide),
    C5_amended.2 [] { defaultOptions with tabWidth := -1 } "" rfl (by decide)⟩

/-! ### Claim C6 — the trailing-comment scenario -/

/-- C6, counterexample.  The claim states that the program
`const x = 10;` with trailing comment `// keep`, at the default options
(placement After, width 80), renders as the single line
`const x = 10; // keep`.  It does not. -/
theorem C6_counterexample :
    prettyPrint cexScenario defaultOptions "const x = 10; // keep"
      ≠ .ok "const x = 10; // keep" := by
  decide

/-- C6, amended.  At the default options the scenario renders as two
lines: the statement collects nested indentation and a duplicated
semicolon (`const   x =   10;;`), and the comment is emitted on its own
line in block style (`  /* // keep */`). -/
theorem C6_amended :
    prettyPrint cexScenario defaultOptions "const x = 10; // keep"
        = .ok "const   x =   10;;\n  /* // keep */" ∧
      linesOf "const   x =   10;;\n  /* // keep */"
        = ["const   x =   10;;", "  /* // keep */"] :=
  ⟨rfl, by decide⟩

/-! ### Claim C7 — comment surface forms -/

/-- C7, counterexample.  The claim states that in the doc style every
physical line of a multi-line comment carries a leading `*`.  For a
comment whose source text spans two lines, the doc style emits the second
physical line without any `*`. -/
theorem C7_counterexample :
    printComment ⟨"a\nb", 0, 3⟩ { defaultOptions with commentFormat := .jsdoc } "a\nb"
        = .ok "  /** a\nb */\n" ∧
      "b */" ∈ linesOf "  /** a\nb */\n" ∧
      ("b */").toList.head? ≠ some '*' ∧
      (("b */").toList.dropWhile Char.isWhitespace).head? ≠ some '*' := by
  refine ⟨rfl, by decide, by decide, by decide⟩

/-- C7, amended.  The comment renderer produces exactly one of four
surface forms selected by `commentFormat` — single-line marker, block
delimiters, HTML delimiters, or a `/** ... */` doc block that preserves
the raw text without adding a `*` to continuation lines — and the form is
independent of the comment-placement options. -/
theorem C7_amended (c : RawComment) (o : Options) (src : String) (ind : String)
    (hInd : indentationOf o = .ok ind) :
    (printComment c o src = .ok (ind ++ "/* " ++ jsSubstring src c.start c.stop ++ " */\n") ∨
     printComment c o src = .ok (ind ++ "// " ++ jsSubstring src c.start c.stop ++ "\n") ∨
     printComment c o src = .ok (ind ++ "<!-- " ++ jsSubstring src c.start c.stop ++ " -->\n") ∨
     printComment c o src = .ok (ind ++ "/** " ++ jsSubstring src c.start c.stop ++ " */\n")) ∧
    (∀ (f : Nat) (g : String),
      printComment c { o with commentPlacementFlag := f, commentPlacement := g } src
        = printComment c o src) := by
  constructor
  · cases hcf : o.commentFormat with
    | multiline => exact Or.inl (by simp [printComment, hInd, hcf, exOk_bind])
    | singleline => exact Or.inr (Or.inl (by simp [printComment, hInd, hcf, exOk_bind]))
    | html => exact Or.inr (Or.inr (Or.inl (by simp [printComment, hInd, hcf, exOk_bind])))
    | jsdoc => exact Or.inr (Or.inr (Or.inr (by simp [printComment, hInd, hcf, exOk_bind])))
  · intro f g
    rfl

/-- C7, witness. -/
theorem C7_witness :
    (printComment ⟨"x", 0, 1⟩ defaultOptions "y"
        = .ok ("  " ++ "/* " ++ jsSubstring "y" 0 1 ++ " */\n") ∨
     printComment ⟨"x", 0, 1⟩ defaultOptions "y"
        = .ok ("  " ++ "// " ++ jsSubstring "y" 0 1 ++ "\n") ∨
     printComment ⟨"x", 0, 1⟩ defaultOptions "y"
        = .ok ("  " ++ "<!-- " ++ jsSubstring "y" 0 1 ++ " -->\n") ∨
     printComment ⟨"x", 0, 1⟩ defaultOptions "y"
        = .ok ("  " ++ "/** " ++ jsSubstring "y" 0 1 ++ " */\n")) :=
  (C7_amended ⟨"x", 0, 1⟩ defaultOptions "y" "  " rfl).1

/-! ### Claim C8 — object literals lack the closing brace -/

/-- C8.  `printObjectExpression` emits the opening `{` followed by the
comma-separated properties and never a closing `}`: whenever the embedded
token strings and the source buffer are brace free, the rendered object
literal starts with `{` and contains strictly more opening than closing
braces — its braces are unbalanced. -/
theorem C8_theorem (props : List ObjProperty) (o : Options) (src : String)
    (out : String) (h : prettyPrint (.expr (.objectE props)) o src = .ok out)
    (ht : ObjProperty.listTokensBF props = true) (hs : braceFree src = true) :
    out.toList.head? = some '\x7b' ∧ charCount '\x7d' out < charCount '\x7b' out := by
  simp only [prettyPrint, printExpr, exBind_eq_ok, Except.ok.injEq] at h
  obtain ⟨ind, hind, outs, hOuts, rfl⟩ := h
  constructor
  · rw [strToList_append]
    rfl
  · have hp := printPropertyList_braces props o src ht hs outs hOuts
    rw [charCount_append, charCount_append,
      charCount_jsJoin '\x7d' ", " (by decide) outs,
      charCount_jsJoin '\x7b' ", " (by decide) outs]
    have hsum := sum_counts_le outs hp
    have l1 : charCount '\x7b' "\x7b" = 1 := by decide
    have l2 : charCount '\x7d' "\x7b" = 0 := by decide
    omega

/-- C8, witness. -/
theorem C8_witness :
    ("\x7b  k :   1").toList.head? = some '\x7b' ∧
      charCount '\x7d' "\x7b  k :   1" < charCount '\x7b' "\x7b  k :   1" :=
  C8_theorem [.mk (.identifier "k") (.literal "1")] defaultOptions "" "\x7b  k :   1"
    rfl (by decide) (by decide)

/-! ### Claim C9 — duplicated semicolons on variable declarations -/

/-- C9.  With the After placement bit set (as in the default options),
every rendered `VariableDeclaration` with at least one declarator ends in
two consecutive semicolons — the declarator printer appends one and the
declaration printer another — and every declarator's rendering ends in a
semicolon, so each non-final declarator contributes a `;` immediately
before its `,` separator. -/
theorem C9_theorem (kind : VarKind) (decls : List Declarator) (o : Options)
    (src : String) (out : String)
    (hAfter : hasFlag o.commentPlacementFlag CommentPlacementFlags.After = true)
    (hne : decls ≠ [])
    (h : prettyPrint (.stmt (.varDecl kind decls)) o src = .ok out) :
    (∃ t, out = t ++ ";;") ∧
      (∀ d ∈ decls, ∀ dout, prettyPrint (.declarator d) o src = .ok dout →
        ∃ q, dout = q ++ ";") := by
  constructor
  · simp only [prettyPrint, printStmt, exBind_eq_ok, Except.ok.injEq] at h
    obtain ⟨ind, hind, parts, hP, rfl⟩ := h
    have hpm := printDeclaratorList_mem decls o src parts hP
    have hpne := printDeclaratorList_ne_nil decls o src parts hP hne
    have hends : ∀ x ∈ parts, ∃ q, x = q ++ ";" := by
      intro x hx
      obtain ⟨d, _, hpd⟩ := hpm x hx
      exact printDeclarator_endsSemi d o src x hAfter hpd
    obtain ⟨t, hjoin⟩ := jsJoin_endsWith ", " ";" parts hpne hends
    rw [if_pos hAfter, hjoin]
    refine ⟨ind ++ kind.str ++ " " ++ t, ?_⟩
    have hsemi : (";" : String) ++ ";" = ";;" := rfl
    simp [strAppend_assoc, hsemi]
  · intro d _ dout hd
    exact printDeclarator_endsSemi d o src dout hAfter hd

/-- C9, witness. -/
theorem C9_witness :
    (∃ t, "  let   x;,   y =   1;;" = t ++ ";;") ∧
      (∀ d ∈ ([.mk "x" none, .mk "y" (some (.literal "1"))] : List Declarator),
        ∀ dout, prettyPrint (.declarator d) defaultOptions "" = .ok dout →
          ∃ q, dout = q ++ ";") :=
  C9_theorem .klet [.mk "x" none, .mk "y" (some (.literal "1"))] defaultOptions ""
    "  let   x;,   y =   1;;" (by decide) (List.cons_ne_nil _ _) rfl

/-! ### Claim C10 — array elisions are removed before printing -/

/-- C10.  `printArrayExpression` filters out `null` elision entries before
printing: any two arrays with the same non-null element sequence render
identically — in particular the trees for `[1,,2]` and `[1, 2]` produce
the same output — and on that flat example the printed commas number one,
the count of non-null elements minus one. -/
theorem C10_theorem :
    (∀ (e1 e2 : List (Option Expr)) (o : Options) (src : String),
      e1.filterMap id = e2.filterMap id →
      prettyPrint (.expr (.arrayE e1)) o src = prettyPrint (.expr (.arrayE e2)) o src) ∧
    prettyPrint (.expr (.arrayE [some (.literal "1"), none, some (.literal "2")]))
        defaultOptions "" = .ok "[  1,   2]" ∧
    prettyPrint (.expr (.arrayE [some (.literal "1"), some (.literal "2")]))
        defaultOptions "" = .ok "[  1,   2]" ∧
    charCount ',' "[  1,   2]" = 2 - 1 := by
  refine ⟨?_, rfl, rfl, by decide⟩
  intro e1 e2 o src h
  simp only [prettyPrint, printExpr]
  rw [printArrayElements_eq_filterMap, printArrayElements_eq_filterMap, h]

/-- C10, witness. -/
theorem C10_witness :
    prettyPrint (.expr (.arrayE [some (.identifier "z"), none])) defaultOptions ""
      = prettyPrint (.expr (.arrayE [some (.identifier "z")])) defaultOptions "" :=
  C10_theorem.1 [some (.identifier "z"), none] [some (.identifier "z")]
    defaultOptions "" rfl
